import Mathlib

/-
  Verification development for the static determinacy-race detector in
  src/llvm/lib/Analysis/TapirRaceDetect.cpp.

  The detector is shallowly embedded: values, instructions, basic blocks,
  loops, tasks, spindles and memory locations are identified by natural
  numbers, and every query the detector makes against its external
  collaborators (alias analysis, dependence analysis, loop info, task info,
  capture tracking) is a field of an explicit context structure RDContext.
  The functions of the detector itself (checkDependence,
  checkOpaqueAccesses, underlyingObjectsAlias, evaluateMaybeParallelAccesses,
  recordLocalRace, recordAncestorRace, recordOpaqueRace,
  checkForRacesHelper, and the MaybeParallelTasksInLoopBody dataflow) are
  translated line by line from the source into total computable Lean
  functions over that context.
-/

namespace TapirRace

/-- Alias-analysis answer, as in llvm AliasResult.  The detector only
branches on NoAlias and MustAlias. -/
inductive AliasResult where
  | NoAlias
  | MayAlias
  | PartAlias
  | MustAlias
deriving DecidableEq

/-- Mod and Ref bits of llvm ModRefInfo. -/
structure ModRefInfo where
  mod : Bool
  ref : Bool
deriving DecidableEq

/-- Bitwise or of two ModRefInfo masks, as the C++ operator. -/
def ModRefInfo.orWith (a b : ModRefInfo) : ModRefInfo :=
  ⟨a.mod || b.mod, a.ref || b.ref⟩

/-- Classification of an llvm Value, mirroring the isa and dyn_cast tests
the detector performs.  The classes tested by the source are mutually
exclusive kinds of Value, so a single kind function is faithful:
allocaK an AllocaInst, callK a CallBase instruction, instrK any other
instruction, argK a function Argument, gvarK a GlobalVariable, gvalOtherK
any other GlobalValue (function, alias), cexprK a ConstantExpr, cnullK a
ConstantPointerNull, otherK everything else. -/
inductive ValKind where
  | allocaK
  | callK
  | instrK
  | argK
  | gvarK
  | gvalOtherK
  | cexprK
  | cnullK
  | otherK
deriving DecidableEq

/-- One level of a dependence direction vector: the LT, EQ, GT bits of
llvm Dependence DVEntry. -/
structure DirEntry where
  lt : Bool
  eq : Bool
  gt : Bool

/-- A dependence as consumed by checkDependence: per loop level, the
direction vector entry and whether the dependence is scalar (not carried)
at that level. -/
structure Dependence where
  direction : Nat → DirEntry
  scalar : Nat → Bool

/-- GeneralAccess: the instruction performing the access, its optional
memory location (none means the access is opaque), and its mod and ref
classification.  Fields not consulted by any analyzed code path
(OperandNum) are omitted. -/
structure GeneralAccess where
  instr : Nat
  loc : Option Nat
  mr : ModRefInfo
deriving DecidableEq

/-- Kind of a recorded race: Local, ViaAncestorMod, ViaAncestorRef,
or Opaque (named with a capital to keep identifiers plain). -/
inductive RaceKind where
  | LocalR
  | AncestorModR
  | AncestorRefR
  | OpaqueR
deriving DecidableEq

/-- One race record: the access it is attached to, the kind, and the
optional racer access (none for ancestor and unknown racers). -/
structure RaceRecordEntry where
  acc : GeneralAccess
  kind : RaceKind
  racer : Option GeneralAccess
deriving DecidableEq

/-- The external world of one function under analysis: every oracle and
piece of program structure the race detector queries.  Values,
instructions, blocks, loops, tasks, spindles, memory locations, and sync
regions are all natural-number identifiers. -/
structure RDContext where
  /-- MemoryLocation.Ptr of a location id. -/
  locPtr : Nat → Nat
  /-- AA alias query on two locations stripped to getBeforeOrAfter
  (pointer and AA tags only, no size). -/
  aliasLocs : Nat → Nat → AliasResult
  /-- getUnderlyingObject of a pointer value. -/
  underlyingObj : Nat → Nat
  /-- isIdentifiedObject of a value. -/
  identifiedObj : Nat → Bool
  /-- Value.stripInBoundsOffsets. -/
  stripIBO : Nat → Nat
  /-- The isa and dyn_cast classification of a value. -/
  valKind : Nat → ValKind
  /-- PointerMayBeCapturedBefore oracle from CaptureTracking, applied to
  an already-stripped instruction value and an instruction. -/
  mayBeCapturedBefore : Nat → Nat → Bool
  /-- NullPointerIsDefined for the function at the address space of the
  given pointer value. -/
  nullIsDefined : Nat → Bool
  /-- The value is a call to the threadlocal.address intrinsic. -/
  isTLAddrCall : Nat → Bool
  /-- GlobalValue.isThreadLocal of a global value. -/
  gvIsThreadLocal : Nat → Bool
  /-- Instruction.mayWriteToMemory. -/
  mayWrite : Nat → Bool
  /-- Parent basic block of an instruction. -/
  instrParent : Nat → Nat
  /-- LoopInfo.getLoopFor of a block. -/
  loopFor : Nat → Option Nat
  /-- LoopInfo.getLoopDepth of a block (0 when in no loop). -/
  blockLoopDepth : Nat → Nat
  /-- Loop.getLoopDepth of a loop. -/
  loopDepth : Nat → Nat
  /-- Loop.getParentLoop. -/
  loopParent : Nat → Option Nat
  /-- Loop.getHeader. -/
  loopHeader : Nat → Nat
  /-- Loop.contains applied to a block. -/
  loopContains : Nat → Nat → Bool
  /-- TaskInfo.getTaskFor of a block. -/
  taskFor : Nat → Nat
  /-- TaskInfo.getSpindleFor of a block. -/
  spindleFor : Nat → Nat
  /-- Spindle.getEntry of a spindle. -/
  spindleEntry : Nat → Nat
  /-- TaskInfo.getEnclosingTask of two blocks. -/
  enclosingTask : Nat → Nat → Nat
  /-- Task.getSubTaskEnclosing of a task and a block. -/
  subTaskEnclosing : Nat → Nat → Nat
  /-- Task.isRootTask. -/
  isRootTask : Nat → Bool
  /-- The continue block of the detach of a non-root task. -/
  detachContinue : Nat → Nat
  /-- Spindle.isSharedEH. -/
  sharedEH : Nat → Bool
  /-- Task.getEntry of a task. -/
  taskEntry : Nat → Nat
  /-- TaskInfo.encloses of a task and a block. -/
  encloses : Nat → Nat → Bool
  /-- MPTasks.TaskList of a spindle (back edges included). -/
  mpTasks : Nat → List Nat
  /-- MPTasksInLoop.TaskList of a spindle (back edges excluded). -/
  mpTasksInLoop : Nat → List Nat
  /-- AccessToObjs of a MemAccessInfo, given as pointer and isMod flag.
  The set of underlying objects is presented in iteration order. -/
  accessToObjs : Nat → Bool → List Nat
  /-- DependenceInfo.depends on two accesses. -/
  depends : GeneralAccess → GeneralAccess → Option Dependence
  /-- isAllocFn of a call instruction value. -/
  isAllocFn : Nat → Bool
  /-- CallBase.returnDoesNotAlias. -/
  retNoAlias : Nat → Bool
  /-- The AssumeSafeMalloc command-line flag. -/
  assumeSafeMalloc : Bool
  /-- Argument.hasByValAttr. -/
  byValAttr : Nat → Bool
  /-- Argument.hasStructRetAttr. -/
  structRetAttr : Nat → Bool
  /-- Argument.hasInAllocaAttr. -/
  inAllocaAttr : Nat → Bool
  /-- GlobalVariable.hasPrivateLinkage. -/
  privateLinkage : Nat → Bool
  /-- GlobalVariable.hasInternalLinkage. -/
  internalLinkage : Nat → Bool
  /-- SpindleAccessMap of a spindle. -/
  spindleAccessMap : Nat → List GeneralAccess
  /-- TaskAccessMap of a task. -/
  taskAccessMap : Nat → List GeneralAccess
  /-- The depth-first enumeration of a task and its descendant tasks. -/
  subTasksDF : Nat → List Nat

/-- GeneralAccess.getPtr: the pointer of the location, if any. -/
def RDContext.getPtr (ctx : RDContext) (GA : GeneralAccess) : Option Nat :=
  GA.loc.map ctx.locPtr

/-- The value is an Instruction (alloca, call, or other instruction). -/
def isInstructionVal (ctx : RDContext) (v : Nat) : Bool :=
  ctx.valKind v = ValKind.allocaK || ctx.valKind v = ValKind.callK ||
    ctx.valKind v = ValKind.instrK

/-- The value is a GlobalValue (a global variable or another global). -/
def isGlobalValueVal (ctx : RDContext) (v : Nat) : Bool :=
  ctx.valKind v = ValKind.gvarK || ctx.valKind v = ValKind.gvalOtherK

/-- AccessPtrAnalysis.PointerCapturedBefore (TapirRaceDetect.cpp 1099 to
1128): strip in-bounds offsets, never treat null as captured, assume
globals and unstrippable pointers are captured, and otherwise ask the
capture-tracking oracle.  The memoization cache of the source is pure and
therefore omitted. -/
def pointerCapturedBefore (ctx : RDContext) (ptr I : Nat) : Bool :=
  let S := ctx.stripIBO ptr
  if ctx.valKind S = ValKind.cnullK then false
  else if isGlobalValueVal ctx S then true
  else if isInstructionVal ctx S = false then true
  else ctx.mayBeCapturedBefore S I

/-- isThreadLocalObject (TapirRaceDetect.cpp 1354 to 1360): true for a
call to the threadlocal.address intrinsic, and for a GlobalValue exactly
when it is thread local. -/
def isThreadLocalObject (ctx : RDContext) (v : Nat) : Bool :=
  if ctx.isTLAddrCall v then true
  else if isGlobalValueVal ctx v then ctx.gvIsThreadLocal v
  else false

/-- Climb n levels of parent loops from an optional loop. -/
def loopParentN (ctx : RDContext) : Option Nat → Nat → Option Nat
  | L, 0 => L
  | none, _ + 1 => none
  | some L, n + 1 => loopParentN ctx (ctx.loopParent L) n

/-- The final while loop of getCommonLoop: climb both loops one parent at
a time until they agree.  The C++ loop terminates through the loop forest
reaching a common ancestor or null on both sides; the fuel argument makes
the recursion structural and equals the remaining depth on well-formed
loop forests. -/
def meetLoops (ctx : RDContext) : Nat → Option Nat → Option Nat → Option Nat
  | 0, L1, L2 => if L1 = L2 then L1 else none
  | fuel + 1, L1, L2 =>
    if L1 = L2 then L1
    else meetLoops ctx fuel (L1.bind ctx.loopParent) (L2.bind ctx.loopParent)

/-- getCommonLoop on two blocks (TapirRaceDetect.cpp 801 to 820): level
the two loops to equal depth, then climb both together. -/
def getCommonLoopBlocks (ctx : RDContext) (B1 B2 : Nat) : Option Nat :=
  let d1 := ctx.blockLoopDepth B1
  let d2 := ctx.blockLoopDepth B2
  meetLoops ctx (min d1 d2)
    (loopParentN ctx (ctx.loopFor B1) (d1 - d2))
    (loopParentN ctx (ctx.loopFor B2) (d2 - d1))

/-- getCommonLoop on a loop and a block (TapirRaceDetect.cpp 822 to 841). -/
def getCommonLoopLoopBlock (ctx : RDContext) (L B : Nat) : Option Nat :=
  let d1 := ctx.loopDepth L
  let d2 := ctx.blockLoopDepth B
  meetLoops ctx (min d1 d2)
    (loopParentN ctx (some L) (d1 - d2))
    (loopParentN ctx (ctx.loopFor B) (d2 - d1))

/-- Depth of an optional loop, with null mapping to 0, as the source
writes CommonLoop question-mark getLoopDepth colon 0. -/
def optLoopDepth (ctx : RDContext) : Option Nat → Nat
  | none => 0
  | some L => ctx.loopDepth L

/-- GetRepSpindleInTask (TapirRaceDetect.cpp 843 to 849). -/
def getRepSpindleInTask (ctx : RDContext) (S T : Nat) : Nat :=
  let Encl := ctx.subTaskEnclosing T (ctx.spindleEntry S)
  if ctx.isRootTask Encl then S
  else ctx.spindleFor (ctx.detachContinue Encl)

/-- The common-task adjustment shared by checkDependence (1004 to 1018)
and checkOpaqueAccesses (1220 to 1236): unless a representative spindle
is a shared exception-handling spindle, replace the common loop by the
loop of the enclosing task when the common loop does not contain that
task, recompute the maximum depth, and fall back to the minimum object
depth when the recomputed depth is 0.  The source dereferences the common
loop, which is non-null at every call site; the none branch is the total
extension. -/
def adjustForCommonTask (ctx : RDContext) (CommonLoop : Option Nat)
    (MaxD MinObjD CommonTask I1Sp I2Sp : Nat) : Option Nat × Nat :=
  if ctx.sharedEH I1Sp = false ∧ ctx.sharedEH I2Sp = false then
    let CL : Option Nat :=
      match CommonLoop with
      | some L =>
        if ctx.loopContains L (ctx.taskEntry CommonTask) = false then
          ctx.loopFor (ctx.taskEntry CommonTask)
        else some L
      | none => none
    let M := optLoopDepth ctx CL
    (CL, if M = 0 then MinObjD else M)
  else (CommonLoop, MaxD)

/-- One of the two common-object scans of checkDependence (897 to 912):
walk the first object list, inserting into the accumulator those objects
present in the other list, and stop with a break flag on the first object
that is absent from the other list.  The break flag records that the
source zeroed MinObjDepth. -/
def scanCommonObjs : List Nat → List Nat → List Nat → List Nat × Bool
  | [], _, acc => (acc, false)
  | o :: rest, other, acc =>
    if o ∈ other then
      scanCommonObjs rest other (if o ∈ acc then acc else acc ++ [o])
    else (acc, true)

/-- The base-object refinement loop of checkDependence (922 to 960): meet
the common object loop with the parent block of each base object, giving
up (null) on any object that is not an alloca or a no-alias-returning
call. -/
def refineLoop (ctx : RDContext) : Option Nat → List Nat → Option Nat
  | CL, [] => CL
  | none, _ :: _ => none
  | some CL, o :: rest =>
    if isInstructionVal ctx o = false then none
    else if ctx.valKind o = ValKind.allocaK then
      refineLoop ctx (getCommonLoopLoopBlock ctx CL (ctx.instrParent o)) rest
    else if ctx.valKind o = ValKind.callK then
      if ctx.retNoAlias o = false then none
      else refineLoop ctx (getCommonLoopLoopBlock ctx CL (ctx.instrParent o)) rest
    else none

/-- The parent chain of an optional loop, innermost first, with fuel
equal to the loop depth (TapirRaceDetect.cpp 1048 to 1053). -/
def loopChain (ctx : RDContext) : Nat → Option Nat → List Nat
  | _, none => []
  | 0, some L => [L]
  | fuel + 1, some L => L :: loopChain ctx fuel (ctx.loopParent L)

/-- The top-down scan for the minimum loop depth to check
(TapirRaceDetect.cpp 1057 to 1084), over the outermost-first loop stack:
skip levels below the minimum object depth, then stop at the first level
whose header spindle has a maybe-parallel task enclosing B2. -/
def findMinLoopDepth (ctx : RDContext) (B2 MinObjDepth : Nat) :
    List Nat → Nat → Nat
  | [], acc => acc
  | L :: rest, acc =>
    if acc < MinObjDepth then findMinLoopDepth ctx B2 MinObjDepth rest (acc + 1)
    else if (ctx.mpTasks (ctx.spindleFor (ctx.loopHeader L))).any
        (fun t => ctx.encloses t B2) then acc
    else findMinLoopDepth ctx B2 MinObjDepth rest (acc + 1)

/-- The inside-out loop-level scan of checkDependence (1087 to 1093):
from the maximum depth down to the minimum depth, report a race at the
first level where the dependence is scalar or has a non-equal direction
component.  MinD is at least 1 at the call site, so the 0 base case is
never reached there. -/
def scanLevels (D : Dependence) (minD : Nat) : Nat → Bool
  | 0 => false
  | II + 1 =>
    if II + 1 < minD then false
    else if D.scalar (II + 1) then true
    else if (D.direction (II + 1)).lt || (D.direction (II + 1)).gt then true
    else scanLevels D minD II

/-- AccessPtrAnalysis.checkDependence (TapirRaceDetect.cpp 851 to 1097),
returning true when the dependence crosses parallel tasks and therefore
signals a race.  The accesses on this path both carry pointers; the
MemAccessInfo pointers default to 0 when absent, matching the source
which never reaches this code with a null pointer. -/
def checkDependence (ctx : RDContext) (D : Option Dependence)
    (GA1 GA2 : GeneralAccess) : Bool :=
  match D with
  | none => false
  | some D =>
    let B1 := ctx.instrParent GA1.instr
    let B2 := ctx.instrParent GA2.instr
    let CommonLoop := getCommonLoopBlocks ctx B1 B2
    let MaxDepth0 := optLoopDepth ctx CommonLoop
    if MaxDepth0 = 0 then true
    else
      let objs1 := ctx.accessToObjs ((ctx.getPtr GA1).getD 0) GA1.mr.mod
      let objs2 := ctx.accessToObjs ((ctx.getPtr GA2).getD 0) GA2.mr.mod
      let scan1 := scanCommonObjs objs1 objs2 []
      let scan2 := scanCommonObjs objs2 objs1 scan1.1
      let BaseObjs := scan2.1
      let MinObj0 := if scan1.2 || scan2.2 then 0 else MaxDepth0
      let CObjLoop0 : Option Nat := if BaseObjs = [] then none else CommonLoop
      let MinObj1 := if BaseObjs = [] ∨ CObjLoop0 = none then 0 else MinObj0
      let CObjLoop1 :=
        if MinObj1 ≠ 0 then refineLoop ctx CObjLoop0 BaseObjs else CObjLoop0
      let MinObjDepth := optLoopDepth ctx CObjLoop1
      let CommonTask := ctx.enclosingTask B1 B2
      let I1Sp := getRepSpindleInTask ctx (ctx.spindleFor B1) CommonTask
      let I2Sp := getRepSpindleInTask ctx (ctx.spindleFor B2) CommonTask
      let adj := adjustForCommonTask ctx CommonLoop MaxDepth0 MinObjDepth
        CommonTask I1Sp I2Sp
      let MaxDepth := adj.2
      if MaxDepth = MinObjDepth then
        if ctx.taskFor B1 = ctx.taskFor B2 then false
        else if MaxDepth = 0 then true
        else if (D.direction MaxDepth).eq = false then false
        else if (ctx.mpTasksInLoop I1Sp).any (fun t => ctx.encloses t B2)
            || (ctx.mpTasksInLoop I2Sp).any (fun t => ctx.encloses t B1) then
          true
        else false
      else
        scanLevels D
          (findMinLoopDepth ctx B2 MinObjDepth
            (loopChain ctx (optLoopDepth ctx adj.1) adj.1).reverse 1)
          MaxDepth

/-- The tail of checkOpaqueAccesses after the capture test
(TapirRaceDetect.cpp 1180 to 1263): the logical-parallelism check with
the minimum object depth passed explicitly; the source fixes it to 0. -/
def opaqueLoopCrossing (ctx : RDContext) (GA1 GA2 : GeneralAccess)
    (MinObjDepth : Nat) : Bool :=
  let B1 := ctx.instrParent GA1.instr
  let B2 := ctx.instrParent GA2.instr
  let CommonLoop := getCommonLoopBlocks ctx B1 B2
  let MaxDepth0 := optLoopDepth ctx CommonLoop
  if MaxDepth0 = 0 then true
  else
    let CommonTask := ctx.enclosingTask B1 B2
    let I1Sp := getRepSpindleInTask ctx (ctx.spindleFor B1) CommonTask
    let I2Sp := getRepSpindleInTask ctx (ctx.spindleFor B2) CommonTask
    let adj := adjustForCommonTask ctx CommonLoop MaxDepth0 MinObjDepth
      CommonTask I1Sp I2Sp
    if adj.2 = MinObjDepth then
      if ctx.taskFor B1 = ctx.taskFor B2 then false
      else if adj.2 = 0 then true
      else if (ctx.mpTasksInLoop I1Sp).any (fun t => ctx.encloses t B2)
          || (ctx.mpTasksInLoop I2Sp).any (fun t => ctx.encloses t B1) then
        true
      else false
    else true

/-- The pointer and instruction of the non-opaque access of a pair
(TapirRaceDetect.cpp 1161 to 1170): the access with a location supplies
both.  The none-none arm is the total extension; that case is handled
before this selection runs. -/
def nonOpaqueInfo (ctx : RDContext) (GA1 GA2 : GeneralAccess) : Nat × Nat :=
  match GA1.loc, GA2.loc with
  | some l, _ => (ctx.locPtr l, GA1.instr)
  | none, some l => (ctx.locPtr l, GA2.instr)
  | none, none => (0, GA1.instr)

/-- AccessPtrAnalysis.checkOpaqueAccesses (TapirRaceDetect.cpp 1130 to
1264): no race if neither instruction may write; race if both accesses
are opaque; otherwise the pointer of the non-opaque access must have been
captured before the non-opaque instruction, and then the
logical-parallelism check runs with minimum object depth 0. -/
def checkOpaqueAccesses (ctx : RDContext) (GA1 GA2 : GeneralAccess) : Bool :=
  if ctx.mayWrite GA1.instr = false ∧ ctx.mayWrite GA2.instr = false then false
  else if GA1.loc = none ∧ GA2.loc = none then true
  else
    let pn := nonOpaqueInfo ctx GA1 GA2
    if pointerCapturedBefore ctx pn.1 pn.2 = false then false
    else opaqueLoopCrossing ctx GA1 GA2 0

/-- AccessPtrAnalysis.underlyingObjectsAlias (TapirRaceDetect.cpp 1318 to
1352).  Both accesses carry locations at every call site; the fallthrough
arm is the total extension. -/
def underlyingObjectsAlias (ctx : RDContext) (GAA GAB : GeneralAccess) :
    AliasResult :=
  match GAA.loc, GAB.loc with
  | some lA, some lB =>
    if ctx.aliasLocs lA lB = AliasResult.NoAlias then AliasResult.NoAlias
    else
      let AObj := ctx.underlyingObj (ctx.locPtr lA)
      let BObj := ctx.underlyingObj (ctx.locPtr lB)
      if AObj = BObj then AliasResult.MustAlias
      else if ctx.identifiedObj AObj = false ∨ ctx.identifiedObj BObj = false then
        if (ctx.identifiedObj AObj = true ∧
              pointerCapturedBefore ctx AObj GAB.instr = false) ∨
            (ctx.identifiedObj BObj = true ∧
              pointerCapturedBefore ctx BObj GAA.instr = false) then
          AliasResult.NoAlias
        else AliasResult.MayAlias
      else AliasResult.NoAlias
  | _, _ => AliasResult.MayAlias

/-- The analysis result state: the per-access race records, flattened
into one list of entries, and the per-object mod-ref summary.
Modelled from the spec: the record methods of RaceInfo (recordLocalRace,
recordRaceViaAncestorMod, recordRaceViaAncestorRef, recordOpaqueRace) are
declared in TapirRaceDetect.h, which is not among the analyzed sources;
per the spec each appends one RaceRecord of the stated kind with the
stated optional racer to the result. -/
structure RDState where
  result : List RaceRecordEntry
  omr : Nat → Option ModRefInfo

/-- setObjectMRForRace (TapirRaceDetect.cpp 1266 to 1271): initialize a
missing entry to NoModRef and or the mask in. -/
def setObjectMRForRace (m : Nat → Option ModRefInfo) (p : Nat)
    (mri : ModRefInfo) : Nat → Option ModRefInfo :=
  fun v =>
    if v = p then some ((((m p).getD ⟨false, false⟩)).orWith mri) else m v

/-- The per-object body of the loop of recordLocalRace
(TapirRaceDetect.cpp 1282 to 1286): or in a Ref mask when the access
modifies, then always a Mod mask. -/
def localOmrStep (GA : GeneralAccess) (m : Nat → Option ModRefInfo)
    (obj : Nat) : Nat → Option ModRefInfo :=
  setObjectMRForRace
    (if GA.mr.mod then setObjectMRForRace m obj ⟨false, true⟩ else m)
    obj ⟨true, false⟩

/-- AccessPtrAnalysis.recordLocalRace (TapirRaceDetect.cpp 1273 to 1287):
append a local race record naming the racer, and run the per-object
summary loop over the underlying objects of the access when it has a
pointer. -/
def recordLocalRace (ctx : RDContext) (GA Racer : GeneralAccess)
    (st : RDState) : RDState :=
  let st1 : RDState :=
    { st with result := st.result ++ [⟨GA, RaceKind.LocalR, some Racer⟩] }
  match ctx.getPtr GA with
  | none => st1
  | some p =>
    { st1 with
      omr := (ctx.accessToObjs p GA.mr.mod).foldl (localOmrStep GA) st1.omr }

/-- recordAncestorRace (TapirRaceDetect.cpp 1289 to 1299): a Ref-kind
ancestor record and Ref mask when the access modifies, then always a
Mod-kind ancestor record and Mod mask. -/
def recordAncestorRace (GA : GeneralAccess) (p : Nat) (st : RDState) :
    RDState :=
  let st1 : RDState :=
    if GA.mr.mod then
      { result := st.result ++ [⟨GA, RaceKind.AncestorRefR, none⟩],
        omr := setObjectMRForRace st.omr p ⟨false, true⟩ }
    else st
  { result := st1.result ++ [⟨GA, RaceKind.AncestorModR, none⟩],
    omr := setObjectMRForRace st1.omr p ⟨true, false⟩ }

/-- recordOpaqueRace (TapirRaceDetect.cpp 1301 to 1311): an opaque record
and Ref mask when the access modifies, then always an opaque record and a
Mod mask. -/
def recordOpaqueRace (GA : GeneralAccess) (p : Nat) (st : RDState) :
    RDState :=
  let st1 : RDState :=
    if GA.mr.mod then
      { result := st.result ++ [⟨GA, RaceKind.OpaqueR, none⟩],
        omr := setObjectMRForRace st.omr p ⟨false, true⟩ }
    else st
  { result := st1.result ++ [⟨GA, RaceKind.OpaqueR, none⟩],
    omr := setObjectMRForRace st1.omr p ⟨true, false⟩ }

/-- AccessPtrAnalysis.evaluateMaybeParallelAccesses (TapirRaceDetect.cpp
1362 to 1424). -/
def evaluateMaybeParallelAccesses (ctx : RDContext)
    (GA1 GA2 : GeneralAccess) (st : RDState) : RDState :=
  if GA1.mr.mod = false ∧ GA2.mr.mod = false then st
  else
    match ctx.getPtr GA1, ctx.getPtr GA2 with
    | some p1, some p2 =>
      if ctx.valKind p1 = ValKind.cnullK ∧ ctx.nullIsDefined p1 = false then st
      else if ctx.valKind p2 = ValKind.cnullK ∧ ctx.nullIsDefined p2 = false then
        st
      else if underlyingObjectsAlias ctx GA1 GA2 = AliasResult.NoAlias then st
      else if isThreadLocalObject ctx p1 = true ∧
          isThreadLocalObject ctx p2 = true then st
      else if checkDependence ctx (ctx.depends GA1 GA2) GA1 GA2 then
        recordLocalRace ctx GA2 GA1 (recordLocalRace ctx GA1 GA2 st)
      else st
    | _, _ =>
      if checkOpaqueAccesses ctx GA1 GA2 then
        recordLocalRace ctx GA2 GA1 (recordLocalRace ctx GA1 GA2 st)
      else st

/-- The per-object dispatch of checkForRacesHelper (TapirRaceDetect.cpp
1444 to 1508) for one underlying object of one access. -/
def objCheckStep (ctx : RDContext) (GA : GeneralAccess) (st : RDState)
    (obj : Nat) : RDState :=
  if ctx.valKind obj = ValKind.allocaK then st
  else if ctx.assumeSafeMalloc ∧ ctx.valKind obj = ValKind.callK ∧
      ctx.isAllocFn obj = true then st
  else if ctx.valKind obj = ValKind.argK then
    if ctx.byValAttr obj || ctx.structRetAttr obj || ctx.inAllocaAttr obj then
      st
    else recordAncestorRace GA obj st
  else if ctx.valKind obj = ValKind.gvarK then
    if ctx.privateLinkage obj || ctx.internalLinkage obj then
      recordAncestorRace GA obj st
    else recordOpaqueRace GA obj st
  else if ctx.valKind obj = ValKind.cexprK then recordOpaqueRace GA obj st
  else recordOpaqueRace GA obj st

/-- The object checks of checkForRacesHelper for one access
(TapirRaceDetect.cpp 1436 to 1509): nothing for an opaque access,
otherwise dispatch on each underlying object. -/
def checkObjectsForGA (ctx : RDContext) (st : RDState)
    (GA : GeneralAccess) : RDState :=
  match ctx.getPtr GA with
  | none => st
  | some p => (ctx.accessToObjs p GA.mr.mod).foldl (objCheckStep ctx GA) st

/-- The maybe-parallel cross checks of checkForRacesHelper for one
spindle (TapirRaceDetect.cpp 1511 to 1518). -/
def crossTaskChecks (ctx : RDContext) (S : Nat) (st : RDState) : RDState :=
  (ctx.mpTasks S).foldl
    (fun st MPT =>
      (ctx.subTasksDF MPT).foldl
        (fun st SubMPT =>
          (ctx.spindleAccessMap S).foldl
            (fun st GA1 =>
              (ctx.taskAccessMap SubMPT).foldl
                (fun st GA2 => evaluateMaybeParallelAccesses ctx GA1 GA2 st)
                st)
            st)
        st)
    st

/-- The body of checkForRacesHelper for one spindle: the per-access
object checks, then the maybe-parallel cross checks. -/
def processSpindle (ctx : RDContext) (st : RDState) (S : Nat) : RDState :=
  crossTaskChecks ctx S ((ctx.spindleAccessMap S).foldl (checkObjectsForGA ctx) st)

/-- AccessPtrAnalysis.checkForRacesHelper (TapirRaceDetect.cpp 1426 to
1530), with the traversal (depth-first over the spindles of each task,
recursing into subtasks, every spindle visited once) represented by the
list of spindles it visits in order. -/
def checkForRacesHelper (ctx : RDContext) (spindles : List Nat)
    (st : RDState) : RDState :=
  spindles.foldl (processSpindle ctx) st

/-- One incoming spindle edge, as consumed by the dataflow evaluate
method: the predecessor spindle, the sync region synced by the incoming
terminator when the edge is a sync edge, and whether the edge is a back
edge of a loop headed by the target entry (the LoopInfo test of the
source folded into the edge, since LoopInfo is an external oracle). -/
structure MPTEdge (Sp Reg : Type) where
  pred : Sp
  syncReg : Option Reg
  isBackEdge : Bool

/-- The spindle graph and task structure consumed by
MaybeParallelTasksInLoopBody: the incoming edges of each spindle, and the
sync region of the detach of each task (none for the root task, which
has no detach). -/
structure MPTGraph (Sp Tk Reg : Type) where
  inEdges : Sp → List (MPTEdge Sp Reg)
  detachSyncReg : Tk → Option Reg

/-- The task filter of MaybeParallelTasksInLoopBody.evaluate
(TapirRaceDetect.cpp 257 to 262): a task is dropped from propagation
exactly when it has a detach whose sync region equals the sync region
synced by the incoming edge. -/
def mptKeepTask {Sp Tk Reg : Type} [DecidableEq Reg]
    (G : MPTGraph Sp Tk Reg) (syncReg : Option Reg) (MP : Tk) : Bool :=
  match G.detachSyncReg MP with
  | none => true
  | some r => decide (syncReg ≠ some r)

/-- MaybeParallelTasksInLoopBody.evaluate on one spindle
(TapirRaceDetect.cpp 235 to 276): starting from the current task list of
the spindle, union in the filtered task list of every predecessor, with
back edges skipped. -/
def mptEvaluate {Sp Tk Reg : Type} [DecidableEq Tk] [DecidableEq Reg]
    (G : MPTGraph Sp Tk Reg) (σ : Sp → Finset Tk) (S : Sp) : Finset Tk :=
  (G.inEdges S).foldl
    (fun acc e =>
      if e.isBackEdge then acc
      else acc ∪ (σ e.pred).filter (fun MP => mptKeepTask G e.syncReg MP))
    (σ S)

/-- Applying the evaluate method to one spindle updates only the task
list of that spindle. -/
def mptStep {Sp Tk Reg : Type} [DecidableEq Sp] [DecidableEq Tk]
    [DecidableEq Reg] (G : MPTGraph Sp Tk Reg) (σ : Sp → Finset Tk)
    (S : Sp) : Sp → Finset Tk :=
  Function.update σ S (mptEvaluate G σ S)

/-- Modelled from the spec: the fixed-point driver
TaskInfo.evaluateParallelState is not among the analyzed sources; per the
spec one iteration of the dataflow applies the evaluate method to every
spindle once, in a fixed order, and the fixed point is reached when no
task list grows in an iteration. -/
def mptPass {Sp Tk Reg : Type} [DecidableEq Sp] [DecidableEq Tk]
    [DecidableEq Reg] (G : MPTGraph Sp Tk Reg) (order : List Sp)
    (σ : Sp → Finset Tk) : Sp → Finset Tk :=
  order.foldl (mptStep G) σ

/-- Total size of a dataflow state: the sum of the task-list sizes over
all spindles. -/
def mptTotal {Sp Tk : Type} [Fintype Sp] (σ : Sp → Finset Tk) : Nat :=
  ∑ S : Sp, (σ S).card

/-- The per-object summary has the Mod (write) flag set for an object. -/
def omrHasMod (m : Nat → Option ModRefInfo) (v : Nat) : Prop :=
  ∃ a, m v = some a ∧ a.mod = true

/-- The per-object summary has the Ref (read) flag set for an object. -/
def omrHasRef (m : Nat → Option ModRefInfo) (v : Nat) : Prop :=
  ∃ a, m v = some a ∧ a.ref = true

/-- A race record satisfies this when, if it is an ancestor-ref record,
its access is a write. -/
def refOnlyForWriters (r : RaceRecordEntry) : Prop :=
  r.kind = RaceKind.AncestorRefR → r.acc.mr.mod = true

/-- The empty analysis state. -/
def emptyState : RDState := ⟨[], fun _ => none⟩

/-- A syntactically trivial context used as the base of the concrete
examples: no loops, one task, one spindle, empty maps, a NoAlias-saying
alias oracle, and no dependences. -/
def defaultCtx : RDContext where
  locPtr := fun v => v
  aliasLocs := fun _ _ => AliasResult.NoAlias
  underlyingObj := fun v => v
  identifiedObj := fun _ => false
  stripIBO := fun v => v
  valKind := fun _ => ValKind.otherK
  mayBeCapturedBefore := fun _ _ => false
  nullIsDefined := fun _ => false
  isTLAddrCall := fun _ => false
  gvIsThreadLocal := fun _ => false
  mayWrite := fun _ => false
  instrParent := fun v => v
  loopFor := fun _ => none
  blockLoopDepth := fun _ => 0
  loopDepth := fun _ => 0
  loopParent := fun _ => none
  loopHeader := fun v => v
  loopContains := fun _ _ => false
  taskFor := fun _ => 0
  spindleFor := fun _ => 0
  spindleEntry := fun v => v
  enclosingTask := fun _ _ => 0
  subTaskEnclosing := fun _ _ => 0
  isRootTask := fun _ => true
  detachContinue := fun v => v
  sharedEH := fun _ => false
  taskEntry := fun _ => 0
  encloses := fun _ _ => false
  mpTasks := fun _ => []
  mpTasksInLoop := fun _ => []
  accessToObjs := fun _ _ => []
  depends := fun _ _ => none
  isAllocFn := fun _ => false
  retNoAlias := fun _ => false
  assumeSafeMalloc := true
  byValAttr := fun _ => false
  structRetAttr := fun _ => false
  inAllocaAttr := fun _ => false
  privateLinkage := fun _ => false
  internalLinkage := fun _ => false
  spindleAccessMap := fun _ => []
  taskAccessMap := fun _ => []
  subTasksDF := fun _ => []

/-- A dependence with an equal direction and no scalar component at every
level, used by the concrete examples. -/
def depEq : Dependence := ⟨fun _ => ⟨false, true, false⟩, fun _ => false⟩

/-- Context for the C3 example: instructions 1 and 2 write through
pointers 11 and 12 to the one shared object 5, both blocks lie in task 7,
there is no loop anywhere, and the dependence oracle reports a
dependence. -/
def c3ctx : RDContext :=
  { defaultCtx with
    aliasLocs := fun _ _ => AliasResult.MayAlias
    underlyingObj := fun _ => 5
    valKind := fun _ => ValKind.instrK
    taskFor := fun _ => 7
    accessToObjs := fun p _ => if p = 11 ∨ p = 12 then [5] else []
    depends := fun _ _ => some depEq }

/-- First write access of the C3 example. -/
def c3ga1 : GeneralAccess := ⟨1, some 11, ⟨true, false⟩⟩

/-- Second write access of the C3 example. -/
def c3ga2 : GeneralAccess := ⟨2, some 12, ⟨true, false⟩⟩

/-- Context for the C4 example: both pointers 11 and 12 resolve to the
thread-local global 5, but the pointers themselves are plain
instructions, there is no loop, and a dependence is reported. -/
def c4ctx : RDContext :=
  { defaultCtx with
    aliasLocs := fun _ _ => AliasResult.MayAlias
    underlyingObj := fun _ => 5
    valKind := fun v => if v = 5 then ValKind.gvarK else ValKind.instrK
    gvIsThreadLocal := fun v => v == 5
    accessToObjs := fun p _ => if p = 11 ∨ p = 12 then [5] else []
    depends := fun _ _ => some depEq }

/-- First write access of the C4 example. -/
def c4ga1 : GeneralAccess := ⟨1, some 11, ⟨true, false⟩⟩

/-- Second write access of the C4 example. -/
def c4ga2 : GeneralAccess := ⟨2, some 12, ⟨true, false⟩⟩

/-- Context for the C4 witness: both access pointers are themselves
calls to the thread-local-address intrinsic. -/
def c4wCtx : RDContext :=
  { defaultCtx with isTLAddrCall := fun _ => true }

/-- Context for the C5 example: instruction 1 may write to memory at the
IR level, but the alias-analysis classification of both opaque accesses
is read-only. -/
def c5ctx : RDContext :=
  { defaultCtx with mayWrite := fun i => i == 1 }

/-- First opaque access of the C5 example: classified Ref only. -/
def c5ga1 : GeneralAccess := ⟨1, none, ⟨false, true⟩⟩

/-- Second opaque access of the C5 example: classified Ref only. -/
def c5ga2 : GeneralAccess := ⟨2, none, ⟨false, true⟩⟩

/-- Context for the C5 witness: both instructions may write. -/
def c5wCtx : RDContext :=
  { defaultCtx with mayWrite := fun _ => true }

/-- Context for the C6 example: instruction 1 accesses pointer 11,
instruction 2 is an opaque call that may write; pointer 11 is captured
before instruction 1 but not before instruction 2; no loops. -/
def c6ctx : RDContext :=
  { defaultCtx with
    mayWrite := fun i => i == 2
    valKind := fun _ => ValKind.instrK
    mayBeCapturedBefore := fun v i => v == 11 && i == 1 }

/-- Non-opaque write access of the C6 example. -/
def c6ga1 : GeneralAccess := ⟨1, some 11, ⟨true, false⟩⟩

/-- Opaque access of the C6 example. -/
def c6ga2 : GeneralAccess := ⟨2, none, ⟨true, true⟩⟩

/-- Context for the C6 witness: as defaultCtx but with every value an
instruction, so the capture oracle (which answers false) decides. -/
def c6wCtx : RDContext :=
  { defaultCtx with valKind := fun _ => ValKind.instrK }

/-- Context for the C9 example: a pure write through pointer 11 and a
read through pointer 12, both resolving to object 5, no loops, and a
reported dependence. -/
def c9ctx : RDContext :=
  { defaultCtx with
    aliasLocs := fun _ _ => AliasResult.MayAlias
    underlyingObj := fun _ => 5
    valKind := fun _ => ValKind.instrK
    accessToObjs := fun p _ => if p = 11 ∨ p = 12 then [5] else []
    depends := fun _ _ => some depEq }

/-- Pure write access of the C9 example: it modifies and does not read. -/
def c9ga1 : GeneralAccess := ⟨1, some 11, ⟨true, false⟩⟩

/-- Read access of the C9 example. -/
def c9ga2 : GeneralAccess := ⟨2, some 12, ⟨false, true⟩⟩

/-- Context for the C8 and C10 witnesses: spindle 0 carries a write
access through pointer 11 and a read-only access through pointer 12,
both resolving to the attribute-free pointer argument 5. -/
def c8ctx : RDContext :=
  { defaultCtx with
    valKind := fun v => if v = 5 then ValKind.argK else ValKind.instrK
    accessToObjs := fun p _ => if p = 11 ∨ p = 12 then [5] else []
    spindleAccessMap := fun s =>
      if s = 0 then
        [⟨1, some 11, ⟨true, false⟩⟩, ⟨2, some 12, ⟨false, true⟩⟩]
      else [] }

/-- Write access of the C8 witness. -/
def c8ga : GeneralAccess := ⟨1, some 11, ⟨true, false⟩⟩

/-- Read-only access of the C10 witness. -/
def c10ga : GeneralAccess := ⟨2, some 12, ⟨false, true⟩⟩

/-- The chain graph of the C7 counterexample: three spindles with plain
edges 0 to 1 and 1 to 2, no sync edges, no back edges, and one task. -/
def c7G : MPTGraph (Fin 3) (Fin 1) (Fin 1) where
  inEdges := fun s =>
    if s = 1 then [⟨0, none, false⟩]
    else if s = 2 then [⟨1, none, false⟩]
    else []
  detachSyncReg := fun _ => none

/-- Evaluation order of the C7 counterexample: reverse topological. -/
def c7ord : List (Fin 3) := [2, 1, 0]

/-- Initial dataflow state of the C7 counterexample: the single task is
seeded (by the external driver) in the list of spindle 0 only. -/
def c7init : Fin 3 → Finset (Fin 1) := fun s => if s = 0 then {0} else ∅

/-- Trivial graph for the C7 witness. -/
def c7wG : MPTGraph (Fin 1) (Fin 1) (Fin 1) where
  inEdges := fun _ => []
  detachSyncReg := fun _ => none

/-- Initial state for the C7 witness. -/
def c7wInit : Fin 1 → Finset (Fin 1) := fun _ => ∅

/-- Task universe for the C7 witness. -/
def c7wU : Finset (Fin 1) := ∅

section Lemmas

/-- A property preserved by every fold step is preserved by the fold. -/
theorem foldl_pres {α β : Type} (f : β → α → β) (P : β → Prop)
    (hf : ∀ b a, P b → P (f b a)) :
    ∀ (l : List α) (b : β), P b → P (l.foldl f b) := by
  intro l
  induction l with
  | nil => intro b hb; simpa using hb
  | cons x xs ih =>
    intro b hb
    simpa using ih (f b x) (hf b x hb)

/-- A property established by the fold step on a given element and
preserved by every step holds after folding any list containing the
element. -/
theorem foldl_est {α β : Type} (f : β → α → β) (P : β → Prop) (a₀ : α)
    (hf : ∀ b a, P b → P (f b a)) (he : ∀ b, P (f b a₀)) :
    ∀ (l : List α) (b : β), a₀ ∈ l → P (l.foldl f b) := by
  intro l
  induction l with
  | nil => intro b hb; cases hb
  | cons x xs ih =>
    intro b hb
    rcases List.mem_cons.mp hb with hx | hx
    · simpa using foldl_pres f P hf xs (f b x) (hx ▸ he b)
    · simpa using ih (f b x) hx

/-- If every fold step only adds records satisfying Q, the fold only adds
records satisfying Q. -/
theorem foldl_records {α β : Type} (f : β → α → β)
    (g : β → List RaceRecordEntry) (Q : RaceRecordEntry → Prop)
    (hf : ∀ b a r, r ∈ g (f b a) → r ∈ g b ∨ Q r) :
    ∀ (l : List α) (b : β) (r : RaceRecordEntry),
      r ∈ g (l.foldl f b) → r ∈ g b ∨ Q r := by
  intro l
  induction l with
  | nil => intro b r hr; exact Or.inl (by simpa using hr)
  | cons x xs ih =>
    intro b r hr
    rcases ih (f b x) r (by simpa using hr) with h | h
    · exact hf b x r h
    · exact Or.inr h

/-- Appending two entries changes a list. -/
theorem list_append_two_ne {α : Type} (l : List α) (a b : α) :
    l ++ [a, b] ≠ l := by
  intro h
  have h2 := congrArg List.length h
  simp at h2

/-- evaluateMaybeParallelAccesses either leaves the state unchanged or
records the two symmetric local races. -/
theorem evalMPA_cases (ctx : RDContext) (GA1 GA2 : GeneralAccess)
    (st : RDState) :
    evaluateMaybeParallelAccesses ctx GA1 GA2 st = st ∨
      evaluateMaybeParallelAccesses ctx GA1 GA2 st =
        recordLocalRace ctx GA2 GA1 (recordLocalRace ctx GA1 GA2 st) := by
  unfold evaluateMaybeParallelAccesses
  split
  · exact Or.inl rfl
  · split <;> split_ifs <;> first | exact Or.inl rfl | exact Or.inr rfl

/-- recordLocalRace appends exactly one local record. -/
theorem recordLocalRace_result (ctx : RDContext) (GA R : GeneralAccess)
    (st : RDState) :
    (recordLocalRace ctx GA R st).result =
      st.result ++ [⟨GA, RaceKind.LocalR, some R⟩] := by
  unfold recordLocalRace
  split <;> rfl

/-- setObjectMRForRace keeps an existing Mod flag. -/
theorem setObjectMR_hasMod_pres (m : Nat → Option ModRefInfo) (p : Nat)
    (mri : ModRefInfo) (v : Nat) (h : omrHasMod m v) :
    omrHasMod (setObjectMRForRace m p mri) v := by
  obtain ⟨a, ha, hm⟩ := h
  unfold omrHasMod setObjectMRForRace
  by_cases hv : v = p
  · subst hv
    exact ⟨a.orWith mri, by simp [ha], by simp [ModRefInfo.orWith, hm]⟩
  · exact ⟨a, by simp [hv, ha], hm⟩

/-- setObjectMRForRace keeps an existing Ref flag. -/
theorem setObjectMR_hasRef_pres (m : Nat → Option ModRefInfo) (p : Nat)
    (mri : ModRefInfo) (v : Nat) (h : omrHasRef m v) :
    omrHasRef (setObjectMRForRace m p mri) v := by
  obtain ⟨a, ha, hm⟩ := h
  unfold omrHasRef setObjectMRForRace
  by_cases hv : v = p
  · subst hv
    exact ⟨a.orWith mri, by simp [ha], by simp [ModRefInfo.orWith, hm]⟩
  · exact ⟨a, by simp [hv, ha], hm⟩

/-- setObjectMRForRace with a Mod mask sets the Mod flag. -/
theorem setObjectMR_hasMod_est (m : Nat → Option ModRefInfo) (p : Nat)
    (mri : ModRefInfo) (h : mri.mod = true) :
    omrHasMod (setObjectMRForRace m p mri) p := by
  unfold omrHasMod setObjectMRForRace
  exact ⟨((m p).getD ⟨false, false⟩).orWith mri, by simp,
    by simp [ModRefInfo.orWith, h]⟩

/-- setObjectMRForRace with a Ref mask sets the Ref flag. -/
theorem setObjectMR_hasRef_est (m : Nat → Option ModRefInfo) (p : Nat)
    (mri : ModRefInfo) (h : mri.ref = true) :
    omrHasRef (setObjectMRForRace m p mri) p := by
  unfold omrHasRef setObjectMRForRace
  exact ⟨((m p).getD ⟨false, false⟩).orWith mri, by simp,
    by simp [ModRefInfo.orWith, h]⟩

/-- The fold step of recordLocalRace keeps the Mod flag of any object. -/
theorem localOmrStep_hasMod_pres (GA : GeneralAccess)
    (m : Nat → Option ModRefInfo) (obj v : Nat) (h : omrHasMod m v) :
    omrHasMod (localOmrStep GA m obj) v := by
  unfold localOmrStep
  apply setObjectMR_hasMod_pres
  split
  · exact setObjectMR_hasMod_pres m obj ⟨false, true⟩ v h
  · exact h

/-- The fold step of recordLocalRace keeps the Ref flag of any object. -/
theorem localOmrStep_hasRef_pres (GA : GeneralAccess)
    (m : Nat → Option ModRefInfo) (obj v : Nat) (h : omrHasRef m v) :
    omrHasRef (localOmrStep GA m obj) v := by
  unfold localOmrStep
  apply setObjectMR_hasRef_pres
  split
  · exact setObjectMR_hasRef_pres m obj ⟨false, true⟩ v h
  · exact h

/-- The fold step of recordLocalRace sets the Mod flag of its object. -/
theorem localOmrStep_hasMod_est (GA : GeneralAccess)
    (m : Nat → Option ModRefInfo) (obj : Nat) :
    omrHasMod (localOmrStep GA m obj) obj :=
  setObjectMR_hasMod_est _ obj ⟨true, false⟩ rfl

/-- The fold step of recordLocalRace sets the Ref flag of its object
when the access modifies. -/
theorem localOmrStep_hasRef_est (GA : GeneralAccess)
    (m : Nat → Option ModRefInfo) (obj : Nat) (h : GA.mr.mod = true) :
    omrHasRef (localOmrStep GA m obj) obj := by
  unfold localOmrStep
  apply setObjectMR_hasRef_pres
  rw [if_pos h]
  exact setObjectMR_hasRef_est m obj ⟨false, true⟩ rfl

/-- The omr map produced by recordLocalRace, as a fold of the named
step. -/
theorem recordLocalRace_omr_eq (ctx : RDContext) (GA R : GeneralAccess)
    (st : RDState) (p : Nat) (hp : ctx.getPtr GA = some p) :
    (recordLocalRace ctx GA R st).omr =
      (ctx.accessToObjs p GA.mr.mod).foldl (localOmrStep GA) st.omr := by
  unfold recordLocalRace localOmrStep
  rw [hp]

/-- recordLocalRace on an opaque access keeps the omr map. -/
theorem recordLocalRace_omr_none (ctx : RDContext) (GA R : GeneralAccess)
    (st : RDState) (hp : ctx.getPtr GA = none) :
    (recordLocalRace ctx GA R st).omr = st.omr := by
  unfold recordLocalRace
  rw [hp]

/-- recordLocalRace keeps the Mod flag of any object. -/
theorem recordLocalRace_hasMod_pres (ctx : RDContext)
    (GA R : GeneralAccess) (st : RDState) (v : Nat)
    (h : omrHasMod st.omr v) :
    omrHasMod (recordLocalRace ctx GA R st).omr v := by
  rcases hp : ctx.getPtr GA with _ | p
  · rw [recordLocalRace_omr_none ctx GA R st hp]; exact h
  · rw [recordLocalRace_omr_eq ctx GA R st p hp]
    exact foldl_pres _ (fun m => omrHasMod m v)
      (fun m obj hm => localOmrStep_hasMod_pres GA m obj v hm) _ st.omr h

/-- recordLocalRace keeps the Ref flag of any object. -/
theorem recordLocalRace_hasRef_pres (ctx : RDContext)
    (GA R : GeneralAccess) (st : RDState) (v : Nat)
    (h : omrHasRef st.omr v) :
    omrHasRef (recordLocalRace ctx GA R st).omr v := by
  rcases hp : ctx.getPtr GA with _ | p
  · rw [recordLocalRace_omr_none ctx GA R st hp]; exact h
  · rw [recordLocalRace_omr_eq ctx GA R st p hp]
    exact foldl_pres _ (fun m => omrHasRef m v)
      (fun m obj hm => localOmrStep_hasRef_pres GA m obj v hm) _ st.omr h

/-- recordLocalRace sets the Mod flag of every object of its access, and
the Ref flag too when the access modifies. -/
theorem recordLocalRace_omr_est (ctx : RDContext) (GA R : GeneralAccess)
    (st : RDState) (p : Nat) (hp : ctx.getPtr GA = some p) (obj : Nat)
    (hobj : obj ∈ ctx.accessToObjs p GA.mr.mod) :
    omrHasMod (recordLocalRace ctx GA R st).omr obj ∧
      (GA.mr.mod = true → omrHasRef (recordLocalRace ctx GA R st).omr obj) := by
  rw [recordLocalRace_omr_eq ctx GA R st p hp]
  constructor
  · exact foldl_est (localOmrStep GA) (fun m => omrHasMod m obj) obj
      (fun m a hm => localOmrStep_hasMod_pres GA m a obj hm)
      (fun m => localOmrStep_hasMod_est GA m obj) _ st.omr hobj
  · intro hmod
    exact foldl_est (localOmrStep GA) (fun m => omrHasRef m obj) obj
      (fun m a hm => localOmrStep_hasRef_pres GA m a obj hm)
      (fun m => localOmrStep_hasRef_est GA m obj hmod) _ st.omr hobj

end Lemmas

/-- C1: if the underlying-object disambiguation answers NoAlias for a
pair of accesses that both carry locations, then
evaluateMaybeParallelAccesses leaves the analysis state untouched, for
every context, so no race is recorded for the pair regardless of task or
loop structure. -/
theorem C1_noalias_no_race (ctx : RDContext) (GA1 GA2 : GeneralAccess)
    (st : RDState) (l1 l2 : Nat) (h1 : GA1.loc = some l1)
    (h2 : GA2.loc = some l2)
    (hA : underlyingObjectsAlias ctx GA1 GA2 = AliasResult.NoAlias) :
    evaluateMaybeParallelAccesses ctx GA1 GA2 st = st := by
  unfold evaluateMaybeParallelAccesses
  simp only [RDContext.getPtr, h1, h2, Option.map_some']
  split_ifs <;> simp_all

/-- Witness for C1 at a concrete input. -/
theorem C1_noalias_no_race_witness :
    (⟨1, some 11, ⟨true, false⟩⟩ : GeneralAccess).loc = some 11 ∧
      underlyingObjectsAlias defaultCtx ⟨1, some 11, ⟨true, false⟩⟩
        ⟨2, some 12, ⟨true, false⟩⟩ = AliasResult.NoAlias ∧
      evaluateMaybeParallelAccesses defaultCtx ⟨1, some 11, ⟨true, false⟩⟩
        ⟨2, some 12, ⟨true, false⟩⟩ emptyState = emptyState :=
  ⟨rfl, by decide,
    C1_noalias_no_race defaultCtx _ _ emptyState 11 12 rfl rfl (by decide)⟩

/-- C2: if neither access of a pair is classified as modifying, and for
an opaque pairing neither instruction may write to memory, then
evaluateMaybeParallelAccesses leaves the analysis state untouched, so no
race is recorded for the pair. -/
theorem C2_read_read_no_race (ctx : RDContext) (GA1 GA2 : GeneralAccess)
    (st : RDState) (h1 : GA1.mr.mod = false) (h2 : GA2.mr.mod = false)
    (_h3 : GA1.loc = none ∨ GA2.loc = none →
      ctx.mayWrite GA1.instr = false ∧ ctx.mayWrite GA2.instr = false) :
    evaluateMaybeParallelAccesses ctx GA1 GA2 st = st := by
  unfold evaluateMaybeParallelAccesses
  simp [h1, h2]

/-- Witness for C2 at a concrete input. -/
theorem C2_read_read_no_race_witness :
    (⟨1, some 11, ⟨false, true⟩⟩ : GeneralAccess).mr.mod = false ∧
      evaluateMaybeParallelAccesses defaultCtx ⟨1, some 11, ⟨false, true⟩⟩
        ⟨2, some 12, ⟨false, true⟩⟩ emptyState = emptyState :=
  ⟨rfl, C2_read_read_no_race defaultCtx _ _ emptyState rfl rfl
    (fun _ => ⟨rfl, rfl⟩)⟩

/-- Counterexample to C3: two writes to the same object 5, in the same
task 7, with no common enclosing loop and a reported dependence, are
classified by checkDependence as a race (true), not as no-race: the
no-loop early return at TapirRaceDetect.cpp 884 to 887 reports a race
before the same-task test at line 1022 can run. -/
theorem C3_counterexample :
    c3ctx.taskFor (c3ctx.instrParent c3ga1.instr) =
        c3ctx.taskFor (c3ctx.instrParent c3ga2.instr) ∧
      getCommonLoopBlocks c3ctx (c3ctx.instrParent c3ga1.instr)
        (c3ctx.instrParent c3ga2.instr) = none ∧
      c3ga1.mr.mod = true ∧ c3ga2.mr.mod = true ∧
      c3ctx.accessToObjs 11 true = [5] ∧
      c3ctx.accessToObjs 12 true = [5] ∧
      checkDependence c3ctx (c3ctx.depends c3ga1 c3ga2) c3ga1 c3ga2 = true := by
  refine ⟨rfl, by decide, rfl, rfl, by decide, by decide, by decide⟩

/-- C3 amended: two writes to the same object in the same task with no
common enclosing loop and a reported dependence are classified as a race
by checkDependence; the no-loop early return reports a race regardless
of task structure, and the no-race early return for same-task pairs can
only run when the maximum loop depth to check is nonzero. -/
theorem C3_amended (ctx : RDContext) (D : Option Dependence)
    (GA1 GA2 : GeneralAccess) (hD : D ≠ none)
    (_hsame : ctx.taskFor (ctx.instrParent GA1.instr) =
      ctx.taskFor (ctx.instrParent GA2.instr))
    (_hw1 : GA1.mr.mod = true) (_hw2 : GA2.mr.mod = true)
    (hnl : getCommonLoopBlocks ctx (ctx.instrParent GA1.instr)
      (ctx.instrParent GA2.instr) = none) :
    checkDependence ctx D GA1 GA2 = true := by
  rcases D with _ | d
  · exact absurd rfl hD
  · unfold checkDependence
    simp [hnl, optLoopDepth]

/-- Witness for the amended C3 at the concrete C3 input. -/
theorem C3_amended_witness :
    (some depEq ≠ none ∧
        c3ctx.taskFor (c3ctx.instrParent c3ga1.instr) =
          c3ctx.taskFor (c3ctx.instrParent c3ga2.instr) ∧
        getCommonLoopBlocks c3ctx (c3ctx.instrParent c3ga1.instr)
          (c3ctx.instrParent c3ga2.instr) = none) ∧
      checkDependence c3ctx (some depEq) c3ga1 c3ga2 = true :=
  ⟨⟨Option.some_ne_none depEq, rfl, by decide⟩,
    C3_amended c3ctx (some depEq) c3ga1 c3ga2 (Option.some_ne_none depEq) rfl
      rfl rfl (by decide)⟩

/-- Counterexample to C4: both accesses of the pair resolve (through the
underlying-object resolver and through getUnderlyingObject) only to the
thread-local global 5, both are writes, a dependence is reported, and
evaluateMaybeParallelAccesses nevertheless records a race for the pair,
because the source tests isThreadLocalObject on the raw access pointers,
which here are ordinary instructions. -/
theorem C4_counterexample :
    (∀ o ∈ c4ctx.accessToObjs 11 true, isThreadLocalObject c4ctx o = true) ∧
      (∀ o ∈ c4ctx.accessToObjs 12 true, isThreadLocalObject c4ctx o = true) ∧
      isThreadLocalObject c4ctx (c4ctx.underlyingObj (c4ctx.locPtr 11)) =
        true ∧
      isThreadLocalObject c4ctx (c4ctx.underlyingObj (c4ctx.locPtr 12)) =
        true ∧
      c4ga1.mr.mod = true ∧ c4ga2.mr.mod = true ∧
      (evaluateMaybeParallelAccesses c4ctx c4ga1 c4ga2 emptyState).result =
        [⟨c4ga1, RaceKind.LocalR, some c4ga2⟩,
          ⟨c4ga2, RaceKind.LocalR, some c4ga1⟩] := by
  refine ⟨by decide, by decide, by decide, by decide, rfl, rfl, by decide⟩

/-- C4 amended: when both access pointers are themselves thread-local
objects (a thread-local global or a call to the thread-local-address
intrinsic), evaluateMaybeParallelAccesses leaves the state untouched, so
no race is recorded even when both are writes and a dependence exists. -/
theorem C4_amended (ctx : RDContext) (GA1 GA2 : GeneralAccess)
    (st : RDState) (l1 l2 : Nat) (h1 : GA1.loc = some l1)
    (h2 : GA2.loc = some l2)
    (ht1 : isThreadLocalObject ctx (ctx.locPtr l1) = true)
    (ht2 : isThreadLocalObject ctx (ctx.locPtr l2) = true) :
    evaluateMaybeParallelAccesses ctx GA1 GA2 st = st := by
  unfold evaluateMaybeParallelAccesses
  simp only [RDContext.getPtr, h1, h2, Option.map_some']
  split_ifs <;> simp_all

/-- Witness for the amended C4 at a concrete input. -/
theorem C4_amended_witness :
    (isThreadLocalObject c4wCtx (c4wCtx.locPtr 11) = true ∧
        isThreadLocalObject c4wCtx (c4wCtx.locPtr 12) = true) ∧
      evaluateMaybeParallelAccesses c4wCtx c4ga1 c4ga2 emptyState =
        emptyState :=
  ⟨⟨by decide, by decide⟩,
    C4_amended c4wCtx c4ga1 c4ga2 emptyState 11 12 rfl rfl (by decide)
      (by decide)⟩

/-- Counterexample to C6: one access is opaque, a race is recorded, yet
the non-opaque pointer is not captured before the opaque instruction:
the source tests capture before the non-opaque instruction instead. -/
theorem C6_counterexample :
    c6ga1.loc = some 11 ∧ c6ga2.loc = none ∧
      pointerCapturedBefore c6ctx (c6ctx.locPtr 11) c6ga2.instr = false ∧
      (evaluateMaybeParallelAccesses c6ctx c6ga1 c6ga2 emptyState).result =
        [⟨c6ga1, RaceKind.LocalR, some c6ga2⟩,
          ⟨c6ga2, RaceKind.LocalR, some c6ga1⟩] := by
  refine ⟨rfl, rfl, by decide, by decide⟩

/-- C6 amended: for a pair with exactly one opaque access, a race is
recorded only if the non-opaque pointer has been captured before the
non-opaque access; and when it has been captured, checkOpaqueAccesses
falls through to the loop-crossing test with the minimum relevant loop
depth treated as zero. -/
theorem C6_amended (ctx : RDContext) (GA1 GA2 : GeneralAccess)
    (st : RDState)
    (hone : (GA1.loc = none ∧ ∃ l, GA2.loc = some l) ∨
      (GA2.loc = none ∧ ∃ l, GA1.loc = some l)) :
    (pointerCapturedBefore ctx (nonOpaqueInfo ctx GA1 GA2).1
        (nonOpaqueInfo ctx GA1 GA2).2 = false →
      evaluateMaybeParallelAccesses ctx GA1 GA2 st = st) ∧
    (pointerCapturedBefore ctx (nonOpaqueInfo ctx GA1 GA2).1
        (nonOpaqueInfo ctx GA1 GA2).2 = true →
      (ctx.mayWrite GA1.instr = true ∨ ctx.mayWrite GA2.instr = true) →
      checkOpaqueAccesses ctx GA1 GA2 = opaqueLoopCrossing ctx GA1 GA2 0) := by
  obtain ⟨hn, l, hs⟩ | ⟨hn, l, hs⟩ := hone
  · constructor
    · intro hcap
      have hco : checkOpaqueAccesses ctx GA1 GA2 = false := by
        unfold checkOpaqueAccesses
        split_ifs <;> simp_all
      unfold evaluateMaybeParallelAccesses
      simp only [RDContext.getPtr, hn, Option.map_none']
      split_ifs <;> simp_all
    · intro hcap hw
      unfold checkOpaqueAccesses
      split_ifs <;> simp_all
  · constructor
    · intro hcap
      have hco : checkOpaqueAccesses ctx GA1 GA2 = false := by
        unfold checkOpaqueAccesses
        split_ifs <;> simp_all
      unfold evaluateMaybeParallelAccesses
      simp only [RDContext.getPtr, hn, Option.map_none']
      split_ifs <;> simp_all
    · intro hcap hw
      unfold checkOpaqueAccesses
      split_ifs <;> simp_all

/-- Witness for the amended C6 at a concrete input where the pointer has
not been captured. -/
theorem C6_amended_witness :
    ((⟨2, none, ⟨true, true⟩⟩ : GeneralAccess).loc = none ∧
        (⟨1, some 11, ⟨true, false⟩⟩ : GeneralAccess).loc = some 11) ∧
      (pointerCapturedBefore c6wCtx
          (nonOpaqueInfo c6wCtx ⟨1, some 11, ⟨true, false⟩⟩
            ⟨2, none, ⟨true, true⟩⟩).1
          (nonOpaqueInfo c6wCtx ⟨1, some 11, ⟨true, false⟩⟩
            ⟨2, none, ⟨true, true⟩⟩).2 = false →
        evaluateMaybeParallelAccesses c6wCtx ⟨1, some 11, ⟨true, false⟩⟩
          ⟨2, none, ⟨true, true⟩⟩ emptyState = emptyState) ∧
      (pointerCapturedBefore c6wCtx
          (nonOpaqueInfo c6wCtx ⟨1, some 11, ⟨true, false⟩⟩
            ⟨2, none, ⟨true, true⟩⟩).1
          (nonOpaqueInfo c6wCtx ⟨1, some 11, ⟨true, false⟩⟩
            ⟨2, none, ⟨true, true⟩⟩).2 = true →
        (c6wCtx.mayWrite 1 = true ∨ c6wCtx.mayWrite 2 = true) →
        checkOpaqueAccesses c6wCtx ⟨1, some 11, ⟨true, false⟩⟩
          ⟨2, none, ⟨true, true⟩⟩ =
          opaqueLoopCrossing c6wCtx ⟨1, some 11, ⟨true, false⟩⟩
            ⟨2, none, ⟨true, true⟩⟩ 0) :=
  ⟨⟨rfl, rfl⟩,
    (C6_amended c6wCtx ⟨1, some 11, ⟨true, false⟩⟩ ⟨2, none, ⟨true, true⟩⟩
      emptyState (Or.inr ⟨rfl, 11, rfl⟩)).1,
    (C6_amended c6wCtx ⟨1, some 11, ⟨true, false⟩⟩ ⟨2, none, ⟨true, true⟩⟩
      emptyState (Or.inr ⟨rfl, 11, rfl⟩)).2⟩

/-- Counterexample to C5: both accesses are opaque and instruction 1 may
write to memory at the IR level, yet no race is recorded, because both
accesses carry a read-only alias-analysis classification and
evaluateMaybeParallelAccesses returns before consulting
checkOpaqueAccesses. -/
theorem C5_counterexample :
    c5ga1.loc = none ∧ c5ga2.loc = none ∧
      c5ctx.mayWrite c5ga1.instr = true ∧
      (evaluateMaybeParallelAccesses c5ctx c5ga1 c5ga2 emptyState).result =
        [] := by
  refine ⟨rfl, rfl, by decide, by decide⟩

/-- C5 amended: for a pair of maybe-parallel accesses that are both
opaque, a race is recorded if and only if at least one of the two
instructions may write to memory and at least one of the two accesses is
classified as modifying. -/
theorem C5_amended (ctx : RDContext) (GA1 GA2 : GeneralAccess)
    (st : RDState) (h1 : GA1.loc = none) (h2 : GA2.loc = none) :
    (evaluateMaybeParallelAccesses ctx GA1 GA2 st).result ≠ st.result ↔
      ((GA1.mr.mod = true ∨ GA2.mr.mod = true) ∧
        (ctx.mayWrite GA1.instr = true ∨ ctx.mayWrite GA2.instr = true)) := by
  unfold evaluateMaybeParallelAccesses checkOpaqueAccesses
  simp only [RDContext.getPtr, h1, h2, Option.map_none']
  cases hm1 : GA1.mr.mod <;> cases hm2 : GA2.mr.mod <;>
    cases hw1 : ctx.mayWrite GA1.instr <;>
    cases hw2 : ctx.mayWrite GA2.instr <;>
    simp_all [recordLocalRace_result, List.append_assoc, list_append_two_ne]

/-- Witness for the amended C5 at a concrete input where a race is
recorded. -/
theorem C5_amended_witness :
    (c5ga1.loc = none ∧ c5ga2.loc = none) ∧
      ((evaluateMaybeParallelAccesses c5wCtx ⟨1, none, ⟨true, true⟩⟩
          ⟨2, none, ⟨true, true⟩⟩ emptyState).result ≠ emptyState.result ↔
        (((⟨1, none, ⟨true, true⟩⟩ : GeneralAccess).mr.mod = true ∨
            (⟨2, none, ⟨true, true⟩⟩ : GeneralAccess).mr.mod = true) ∧
          (c5wCtx.mayWrite 1 = true ∨ c5wCtx.mayWrite 2 = true))) :=
  ⟨⟨rfl, rfl⟩,
    C5_amended c5wCtx ⟨1, none, ⟨true, true⟩⟩ ⟨2, none, ⟨true, true⟩⟩
      emptyState rfl rfl⟩

/-- Counterexample to C9: the evaluator finds a race between a pure
write (Mod only, it does not read) through pointer 11 and a read through
pointer 12, both resolving to object 5; the summary entry for object 5
ends with both flags set, so the object of the writing access has
accumulated a read flag although the access does not read. -/
theorem C9_counterexample :
    c9ga1.mr.mod = true ∧ c9ga1.mr.ref = false ∧
      c9ctx.accessToObjs 11 true = [5] ∧
      (evaluateMaybeParallelAccesses c9ctx c9ga1 c9ga2 emptyState).result =
        [⟨c9ga1, RaceKind.LocalR, some c9ga2⟩,
          ⟨c9ga2, RaceKind.LocalR, some c9ga1⟩] ∧
      (evaluateMaybeParallelAccesses c9ctx c9ga1 c9ga2 emptyState).omr 5 =
        some ⟨true, true⟩ := by
  refine ⟨rfl, rfl, by decide, by decide, by decide⟩

/-- C9 amended: whenever evaluateMaybeParallelAccesses decides a pair
races (the result list changes), a local race record is appended for
each of the two accesses naming the other as its racer, and every
resolved underlying object of each access with a pointer accumulates a
Mod (write) flag, plus a Ref (read) flag exactly when that access is a
write. -/
theorem C9_amended (ctx : RDContext) (GA1 GA2 : GeneralAccess)
    (st : RDState)
    (h : (evaluateMaybeParallelAccesses ctx GA1 GA2 st).result ≠ st.result) :
    (evaluateMaybeParallelAccesses ctx GA1 GA2 st).result =
      st.result ++ [⟨GA1, RaceKind.LocalR, some GA2⟩,
        ⟨GA2, RaceKind.LocalR, some GA1⟩] ∧
    (∀ p, ctx.getPtr GA1 = some p →
      ∀ obj ∈ ctx.accessToObjs p GA1.mr.mod,
        omrHasMod (evaluateMaybeParallelAccesses ctx GA1 GA2 st).omr obj ∧
          (GA1.mr.mod = true →
            omrHasRef (evaluateMaybeParallelAccesses ctx GA1 GA2 st).omr
              obj)) ∧
    (∀ p, ctx.getPtr GA2 = some p →
      ∀ obj ∈ ctx.accessToObjs p GA2.mr.mod,
        omrHasMod (evaluateMaybeParallelAccesses ctx GA1 GA2 st).omr obj ∧
          (GA2.mr.mod = true →
            omrHasRef (evaluateMaybeParallelAccesses ctx GA1 GA2 st).omr
              obj)) := by
  rcases evalMPA_cases ctx GA1 GA2 st with he | he
  · exact absurd (congrArg RDState.result he) h
  · rw [he]
    refine ⟨?_, ?_, ?_⟩
    · simp [recordLocalRace_result, List.append_assoc]
    · intro p hp obj hobj
      have h1 := recordLocalRace_omr_est ctx GA1 GA2 st p hp obj hobj
      exact ⟨recordLocalRace_hasMod_pres ctx GA2 GA1 _ obj h1.1,
        fun hm => recordLocalRace_hasRef_pres ctx GA2 GA1 _ obj (h1.2 hm)⟩
    · intro p hp obj hobj
      exact recordLocalRace_omr_est ctx GA2 GA1
        (recordLocalRace ctx GA1 GA2 st) p hp obj hobj

/-- Witness for the amended C9 at the concrete C9 input. -/
theorem C9_amended_witness :
    (evaluateMaybeParallelAccesses c9ctx c9ga1 c9ga2 emptyState).result ≠
        emptyState.result ∧
      (evaluateMaybeParallelAccesses c9ctx c9ga1 c9ga2 emptyState).result =
        emptyState.result ++ [⟨c9ga1, RaceKind.LocalR, some c9ga2⟩,
          ⟨c9ga2, RaceKind.LocalR, some c9ga1⟩] :=
  ⟨by decide,
    (C9_amended c9ctx c9ga1 c9ga2 emptyState (by decide)).1⟩

section ResultMembership

/-- recordAncestorRace keeps existing records. -/
theorem recordAncestorRace_mem_pres (GA : GeneralAccess) (p : Nat)
    (st : RDState) (r : RaceRecordEntry) (h : r ∈ st.result) :
    r ∈ (recordAncestorRace GA p st).result := by
  unfold recordAncestorRace
  split_ifs <;> simp [h]

/-- recordOpaqueRace keeps existing records. -/
theorem recordOpaqueRace_mem_pres (GA : GeneralAccess) (p : Nat)
    (st : RDState) (r : RaceRecordEntry) (h : r ∈ st.result) :
    r ∈ (recordOpaqueRace GA p st).result := by
  unfold recordOpaqueRace
  split_ifs <;> simp [h]

/-- recordLocalRace keeps existing records. -/
theorem recordLocalRace_mem_pres (ctx : RDContext) (GA R : GeneralAccess)
    (st : RDState) (r : RaceRecordEntry) (h : r ∈ st.result) :
    r ∈ (recordLocalRace ctx GA R st).result := by
  rw [recordLocalRace_result]
  exact List.mem_append_left _ h

/-- evaluateMaybeParallelAccesses keeps existing records. -/
theorem evalMPA_mem_pres (ctx : RDContext) (GA1 GA2 : GeneralAccess)
    (st : RDState) (r : RaceRecordEntry) (h : r ∈ st.result) :
    r ∈ (evaluateMaybeParallelAccesses ctx GA1 GA2 st).result := by
  rcases evalMPA_cases ctx GA1 GA2 st with he | he <;> rw [he]
  · exact h
  · exact recordLocalRace_mem_pres ctx GA2 GA1 _ r
      (recordLocalRace_mem_pres ctx GA1 GA2 st r h)

/-- objCheckStep keeps existing records. -/
theorem objCheckStep_mem_pres (ctx : RDContext) (GA : GeneralAccess)
    (st : RDState) (obj : Nat) (r : RaceRecordEntry) (h : r ∈ st.result) :
    r ∈ (objCheckStep ctx GA st obj).result := by
  unfold objCheckStep
  split_ifs <;>
    first
      | exact h
      | exact recordAncestorRace_mem_pres GA obj st r h
      | exact recordOpaqueRace_mem_pres GA obj st r h

/-- checkObjectsForGA keeps existing records. -/
theorem checkObjectsForGA_mem_pres (ctx : RDContext) (st : RDState)
    (GA : GeneralAccess) (r : RaceRecordEntry) (h : r ∈ st.result) :
    r ∈ (checkObjectsForGA ctx st GA).result := by
  unfold checkObjectsForGA
  rcases hp : ctx.getPtr GA with _ | p
  · exact h
  · exact foldl_pres (objCheckStep ctx GA) (fun s => r ∈ s.result)
      (fun s obj hs => objCheckStep_mem_pres ctx GA s obj r hs) _ st h

/-- crossTaskChecks keeps existing records. -/
theorem crossTaskChecks_mem_pres (ctx : RDContext) (S : Nat)
    (st : RDState) (r : RaceRecordEntry) (h : r ∈ st.result) :
    r ∈ (crossTaskChecks ctx S st).result := by
  unfold crossTaskChecks
  refine foldl_pres _ (fun s => r ∈ s.result) ?_ _ st h
  intro b MPT hb
  refine foldl_pres _ (fun s => r ∈ s.result) ?_ _ b hb
  intro b2 SubMPT hb2
  refine foldl_pres _ (fun s => r ∈ s.result) ?_ _ b2 hb2
  intro b3 GA1 hb3
  refine foldl_pres _ (fun s => r ∈ s.result) ?_ _ b3 hb3
  intro b4 GA2 hb4
  exact evalMPA_mem_pres ctx GA1 GA2 b4 r hb4

/-- processSpindle keeps existing records. -/
theorem processSpindle_mem_pres (ctx : RDContext) (st : RDState)
    (S : Nat) (r : RaceRecordEntry) (h : r ∈ st.result) :
    r ∈ (processSpindle ctx st S).result := by
  unfold processSpindle
  refine crossTaskChecks_mem_pres ctx S _ r ?_
  exact foldl_pres (checkObjectsForGA ctx) (fun s => r ∈ s.result)
    (fun s GA hs => checkObjectsForGA_mem_pres ctx s GA r hs) _ st h

/-- objCheckStep on an attribute-free argument object records the
ancestor-mod race for the access. -/
theorem objCheckStep_arg_est (ctx : RDContext) (GA : GeneralAccess)
    (st : RDState) (obj : Nat) (hk : ctx.valKind obj = ValKind.argK)
    (hb : ctx.byValAttr obj = false) (hs : ctx.structRetAttr obj = false)
    (hi : ctx.inAllocaAttr obj = false) :
    (⟨GA, RaceKind.AncestorModR, none⟩ : RaceRecordEntry) ∈
      (objCheckStep ctx GA st obj).result := by
  unfold objCheckStep recordAncestorRace
  split_ifs <;> simp_all

/-- checkObjectsForGA records the ancestor-mod race when some underlying
object of the access is an attribute-free argument. -/
theorem checkObjectsForGA_arg_est (ctx : RDContext) (st : RDState)
    (GA : GeneralAccess) (p obj : Nat) (hp : ctx.getPtr GA = some p)
    (hobj : obj ∈ ctx.accessToObjs p GA.mr.mod)
    (hk : ctx.valKind obj = ValKind.argK)
    (hb : ctx.byValAttr obj = false) (hs : ctx.structRetAttr obj = false)
    (hi : ctx.inAllocaAttr obj = false) :
    (⟨GA, RaceKind.AncestorModR, none⟩ : RaceRecordEntry) ∈
      (checkObjectsForGA ctx st GA).result := by
  unfold checkObjectsForGA
  rw [hp]
  exact foldl_est (objCheckStep ctx GA)
    (fun s => (⟨GA, RaceKind.AncestorModR, none⟩ : RaceRecordEntry) ∈ s.result)
    obj
    (fun s a hsm => objCheckStep_mem_pres ctx GA s a _ hsm)
    (fun s => objCheckStep_arg_est ctx GA s obj hk hb hs hi) _ st hobj

/-- checkForRacesHelper records the ancestor-mod race for any access of
a visited spindle with an attribute-free argument among its underlying
objects. -/
theorem checkForRacesHelper_arg_est (ctx : RDContext)
    (spindles : List Nat) (S : Nat) (st : RDState) (GA : GeneralAccess)
    (p obj : Nat) (hS : S ∈ spindles) (hGA : GA ∈ ctx.spindleAccessMap S)
    (hp : ctx.getPtr GA = some p)
    (hobj : obj ∈ ctx.accessToObjs p GA.mr.mod)
    (hk : ctx.valKind obj = ValKind.argK)
    (hb : ctx.byValAttr obj = false) (hsr : ctx.structRetAttr obj = false)
    (hi : ctx.inAllocaAttr obj = false) :
    (⟨GA, RaceKind.AncestorModR, none⟩ : RaceRecordEntry) ∈
      (checkForRacesHelper ctx spindles st).result := by
  unfold checkForRacesHelper
  refine foldl_est (processSpindle ctx)
    (fun s => (⟨GA, RaceKind.AncestorModR, none⟩ : RaceRecordEntry) ∈ s.result)
    S (fun s S2 hsm => processSpindle_mem_pres ctx s S2 _ hsm) ?_ spindles st hS
  intro s
  unfold processSpindle
  refine crossTaskChecks_mem_pres ctx S _ _ ?_
  exact foldl_est (checkObjectsForGA ctx)
    (fun s2 =>
      (⟨GA, RaceKind.AncestorModR, none⟩ : RaceRecordEntry) ∈ s2.result)
    GA
    (fun s2 GA2 hsm => checkObjectsForGA_mem_pres ctx s2 GA2 _ hsm)
    (fun s2 => checkObjectsForGA_arg_est ctx s2 GA p obj hp hobj hk hb hsr hi)
    _ s hGA

end ResultMembership

/-- C8: for every write access in a visited spindle whose underlying
objects include a pointer argument lacking the byval, sret, and inalloca
attributes, an ancestor-mod race record for that access is present in
the result of checkForRacesHelper; the context (loop nesting,
task-parallel structure) is arbitrary.  Arguments with byval, sret, or
inalloca are skipped by the recording branch. -/
theorem C8_ancestor_arg_write (ctx : RDContext) (spindles : List Nat)
    (S : Nat) (st : RDState) (GA : GeneralAccess) (p obj : Nat)
    (hS : S ∈ spindles) (hGA : GA ∈ ctx.spindleAccessMap S)
    (hp : ctx.getPtr GA = some p)
    (hobj : obj ∈ ctx.accessToObjs p GA.mr.mod)
    (hk : ctx.valKind obj = ValKind.argK)
    (hb : ctx.byValAttr obj = false) (hsr : ctx.structRetAttr obj = false)
    (hi : ctx.inAllocaAttr obj = false) (_hmod : GA.mr.mod = true) :
    (⟨GA, RaceKind.AncestorModR, none⟩ : RaceRecordEntry) ∈
      (checkForRacesHelper ctx spindles st).result :=
  checkForRacesHelper_arg_est ctx spindles S st GA p obj hS hGA hp hobj hk
    hb hsr hi

/-- Witness for C8 at a concrete input. -/
theorem C8_ancestor_arg_write_witness :
    ((0 : Nat) ∈ [0] ∧ c8ga ∈ c8ctx.spindleAccessMap 0 ∧
        c8ctx.valKind 5 = ValKind.argK ∧ c8ga.mr.mod = true) ∧
      (⟨c8ga, RaceKind.AncestorModR, none⟩ : RaceRecordEntry) ∈
        (checkForRacesHelper c8ctx [0] emptyState).result :=
  ⟨⟨by decide, by decide, by decide, rfl⟩,
    C8_ancestor_arg_write c8ctx [0] 0 emptyState c8ga 11 5 (by decide)
      (by decide) rfl (by decide) (by decide) (by decide) (by decide)
      (by decide) rfl⟩

section RefInvariant

/-- recordLocalRace only adds local records. -/
theorem recordLocalRace_records (ctx : RDContext) (GA R : GeneralAccess)
    (st : RDState) (r : RaceRecordEntry)
    (h : r ∈ (recordLocalRace ctx GA R st).result) :
    r ∈ st.result ∨ refOnlyForWriters r := by
  rw [recordLocalRace_result] at h
  rcases List.mem_append.mp h with h | h
  · exact Or.inl h
  · have hr : r = ⟨GA, RaceKind.LocalR, some R⟩ := by simpa using h
    subst hr
    exact Or.inr (fun hk => by cases hk)

/-- recordAncestorRace only adds records satisfying refOnlyForWriters. -/
theorem recordAncestorRace_records (GA : GeneralAccess) (p : Nat)
    (st : RDState) (r : RaceRecordEntry)
    (h : r ∈ (recordAncestorRace GA p st).result) :
    r ∈ st.result ∨ refOnlyForWriters r := by
  unfold recordAncestorRace at h
  split_ifs at h with hm
  · simp only [List.mem_append, List.mem_singleton] at h
    rcases h with (h | h) | h
    · exact Or.inl h
    · subst h
      exact Or.inr (fun _ => hm)
    · subst h
      exact Or.inr (fun hk => by cases hk)
  · simp only [List.mem_append, List.mem_singleton] at h
    rcases h with h | h
    · exact Or.inl h
    · subst h
      exact Or.inr (fun hk => by cases hk)

/-- recordOpaqueRace only adds opaque records. -/
theorem recordOpaqueRace_records (GA : GeneralAccess) (p : Nat)
    (st : RDState) (r : RaceRecordEntry)
    (h : r ∈ (recordOpaqueRace GA p st).result) :
    r ∈ st.result ∨ refOnlyForWriters r := by
  unfold recordOpaqueRace at h
  split_ifs at h with hm
  · simp only [List.mem_append, List.mem_singleton] at h
    rcases h with (h | h) | h
    · exact Or.inl h
    · subst h
      exact Or.inr (fun hk => by cases hk)
    · subst h
      exact Or.inr (fun hk => by cases hk)
  · simp only [List.mem_append, List.mem_singleton] at h
    rcases h with h | h
    · exact Or.inl h
    · subst h
      exact Or.inr (fun hk => by cases hk)

/-- evaluateMaybeParallelAccesses only adds local records. -/
theorem evalMPA_records (ctx : RDContext) (GA1 GA2 : GeneralAccess)
    (st : RDState) (r : RaceRecordEntry)
    (h : r ∈ (evaluateMaybeParallelAccesses ctx GA1 GA2 st).result) :
    r ∈ st.result ∨ refOnlyForWriters r := by
  rcases evalMPA_cases ctx GA1 GA2 st with he | he <;> rw [he] at h
  · exact Or.inl h
  · rcases recordLocalRace_records ctx GA2 GA1 _ r h with h2 | h2
    · exact recordLocalRace_records ctx GA1 GA2 st r h2
    · exact Or.inr h2

/-- objCheckStep only adds ancestor records for writers, plus opaque and
mod records. -/
theorem objCheckStep_records (ctx : RDContext) (GA : GeneralAccess)
    (st : RDState) (obj : Nat) (r : RaceRecordEntry)
    (h : r ∈ (objCheckStep ctx GA st obj).result) :
    r ∈ st.result ∨ refOnlyForWriters r := by
  unfold objCheckStep at h
  split_ifs at h <;>
    first
      | exact Or.inl h
      | exact recordAncestorRace_records GA obj st r h
      | exact recordOpaqueRace_records GA obj st r h

/-- checkObjectsForGA only adds records satisfying refOnlyForWriters. -/
theorem checkObjectsForGA_records (ctx : RDContext) (st : RDState)
    (GA : GeneralAccess) (r : RaceRecordEntry)
    (h : r ∈ (checkObjectsForGA ctx st GA).result) :
    r ∈ st.result ∨ refOnlyForWriters r := by
  unfold checkObjectsForGA at h
  rcases hp : ctx.getPtr GA with _ | p <;> rw [hp] at h
  · exact Or.inl h
  · exact foldl_records (objCheckStep ctx GA) RDState.result refOnlyForWriters
      (fun s a r2 hr => objCheckStep_records ctx GA s a r2 hr) _ st r h

/-- crossTaskChecks only adds records satisfying refOnlyForWriters. -/
theorem crossTaskChecks_records (ctx : RDContext) (S : Nat)
    (st : RDState) (r : RaceRecordEntry)
    (h : r ∈ (crossTaskChecks ctx S st).result) :
    r ∈ st.result ∨ refOnlyForWriters r := by
  unfold crossTaskChecks at h
  refine foldl_records _ RDState.result refOnlyForWriters ?_ _ st r h
  intro b MPT r2 hr
  refine foldl_records _ RDState.result refOnlyForWriters ?_ _ b r2 hr
  intro b2 SubMPT r3 hr3
  refine foldl_records _ RDState.result refOnlyForWriters ?_ _ b2 r3 hr3
  intro b3 GA1 r4 hr4
  refine foldl_records _ RDState.result refOnlyForWriters ?_ _ b3 r4 hr4
  intro b4 GA2 r5 hr5
  exact evalMPA_records ctx GA1 GA2 b4 r5 hr5

/-- processSpindle only adds records satisfying refOnlyForWriters. -/
theorem processSpindle_records (ctx : RDContext) (st : RDState) (S : Nat)
    (r : RaceRecordEntry) (h : r ∈ (processSpindle ctx st S).result) :
    r ∈ st.result ∨ refOnlyForWriters r := by
  unfold processSpindle at h
  rcases crossTaskChecks_records ctx S _ r h with h2 | h2
  · exact foldl_records (checkObjectsForGA ctx) RDState.result
      refOnlyForWriters
      (fun s GA r2 hr => checkObjectsForGA_records ctx s GA r2 hr) _ st r h2
  · exact Or.inr h2

/-- checkForRacesHelper only adds records satisfying refOnlyForWriters:
every ancestor-ref record it adds belongs to a write access. -/
theorem checkForRacesHelper_records (ctx : RDContext)
    (spindles : List Nat) (st : RDState) (r : RaceRecordEntry)
    (h : r ∈ (checkForRacesHelper ctx spindles st).result) :
    r ∈ st.result ∨ refOnlyForWriters r := by
  unfold checkForRacesHelper at h
  exact foldl_records (processSpindle ctx) RDState.result refOnlyForWriters
    (fun s S r2 hr => processSpindle_records ctx s S r2 hr) _ st r h

end RefInvariant

/-- C10: for every retained access of a visited spindle whose underlying
objects include a pointer argument lacking byval, sret, and inalloca,
including accesses that only read, the ancestor-mod race record is
present in the result of checkForRacesHelper, and every ancestor-ref
record that checkForRacesHelper adds belongs to a write access, so
read-only accesses receive the mod record but never the ref record. -/
theorem C10_readonly_ancestor_mod (ctx : RDContext) (spindles : List Nat)
    (S : Nat) (st : RDState) (GA : GeneralAccess) (p obj : Nat)
    (hS : S ∈ spindles) (hGA : GA ∈ ctx.spindleAccessMap S)
    (hp : ctx.getPtr GA = some p)
    (hobj : obj ∈ ctx.accessToObjs p GA.mr.mod)
    (hk : ctx.valKind obj = ValKind.argK)
    (hb : ctx.byValAttr obj = false) (hsr : ctx.structRetAttr obj = false)
    (hi : ctx.inAllocaAttr obj = false) :
    (⟨GA, RaceKind.AncestorModR, none⟩ : RaceRecordEntry) ∈
        (checkForRacesHelper ctx spindles st).result ∧
      (∀ r ∈ (checkForRacesHelper ctx spindles st).result,
        r ∈ st.result ∨ (r.kind = RaceKind.AncestorRefR →
          r.acc.mr.mod = true)) :=
  ⟨checkForRacesHelper_arg_est ctx spindles S st GA p obj hS hGA hp hobj
      hk hb hsr hi,
    fun r hr => checkForRacesHelper_records ctx spindles st r hr⟩

/-- Witness for C10 at a concrete input with a read-only access. -/
theorem C10_readonly_ancestor_mod_witness :
    (c10ga ∈ c8ctx.spindleAccessMap 0 ∧ c10ga.mr.mod = false ∧
        c8ctx.valKind 5 = ValKind.argK) ∧
      (⟨c10ga, RaceKind.AncestorModR, none⟩ : RaceRecordEntry) ∈
        (checkForRacesHelper c8ctx [0] emptyState).result ∧
      (∀ r ∈ (checkForRacesHelper c8ctx [0] emptyState).result,
        r ∈ emptyState.result ∨ (r.kind = RaceKind.AncestorRefR →
          r.acc.mr.mod = true)) :=
  ⟨⟨by decide, rfl, by decide⟩,
    C10_readonly_ancestor_mod c8ctx [0] 0 emptyState c10ga 12 5 (by decide)
      (by decide) rfl (by decide) (by decide) (by decide) (by decide)
      (by decide)⟩

section Dataflow

set_option linter.unusedSectionVars false

variable {Sp Tk Reg : Type} [DecidableEq Sp] [DecidableEq Tk]
  [DecidableEq Reg]

/-- A fold whose steps grow the accumulator grows the initial set. -/
theorem subset_foldl {α : Type} (f : Finset Tk → α → Finset Tk)
    (hf : ∀ acc e, acc ⊆ f acc e) :
    ∀ (l : List α) (init : Finset Tk), init ⊆ l.foldl f init := by
  intro l
  induction l with
  | nil => intro init; exact subset_rfl
  | cons x xs ih =>
    intro init
    exact (hf init x).trans (ih (f init x))

/-- The evaluate method only inserts tasks into the list of its
spindle. -/
theorem mptEvaluate_grows (G : MPTGraph Sp Tk Reg) (σ : Sp → Finset Tk)
    (S : Sp) : σ S ⊆ mptEvaluate G σ S := by
  unfold mptEvaluate
  apply subset_foldl
  intro acc e
  split
  · exact subset_rfl
  · exact Finset.subset_union_left

/-- One evaluate application only grows the per-spindle task lists. -/
theorem mptStep_grows (G : MPTGraph Sp Tk Reg) (σ : Sp → Finset Tk)
    (S S' : Sp) : σ S' ⊆ mptStep G σ S S' := by
  unfold mptStep
  by_cases h : S' = S
  · subst h
    rw [Function.update_same]
    exact mptEvaluate_grows G σ S'
  · rw [Function.update_noteq h]

/-- One pass of the dataflow only grows the per-spindle task lists. -/
theorem mptPass_grows (G : MPTGraph Sp Tk Reg) :
    ∀ (ord : List Sp) (σ : Sp → Finset Tk) (S' : Sp),
      σ S' ⊆ mptPass G ord σ S' := by
  intro ord
  induction ord with
  | nil => intro σ S'; exact subset_rfl
  | cons x xs ih =>
    intro σ S'
    exact (mptStep_grows G σ x S').trans (ih (mptStep G σ x) S')

/-- The evaluate method stays inside any universe bounding the state. -/
theorem mptEvaluate_bounded (G : MPTGraph Sp Tk Reg)
    (σ : Sp → Finset Tk) (U : Finset Tk) (hb : ∀ S', σ S' ⊆ U) (S : Sp) :
    mptEvaluate G σ S ⊆ U := by
  unfold mptEvaluate
  refine foldl_pres _ (fun acc => acc ⊆ U) ?_ _ (σ S) (hb S)
  intro acc e hacc
  split
  · exact hacc
  · exact Finset.union_subset hacc
      ((Finset.filter_subset _ _).trans (hb e.pred))

/-- One evaluate application stays inside the universe. -/
theorem mptStep_bounded (G : MPTGraph Sp Tk Reg) (σ : Sp → Finset Tk)
    (U : Finset Tk) (hb : ∀ S', σ S' ⊆ U) (S : Sp) :
    ∀ S', mptStep G σ S S' ⊆ U := by
  intro S'
  unfold mptStep
  by_cases h : S' = S
  · subst h
    rw [Function.update_same]
    exact mptEvaluate_bounded G σ U hb S'
  · rw [Function.update_noteq h]
    exact hb S'

/-- One pass stays inside the universe. -/
theorem mptPass_bounded (G : MPTGraph Sp Tk Reg) :
    ∀ (ord : List Sp) (σ : Sp → Finset Tk) (U : Finset Tk),
      (∀ S', σ S' ⊆ U) → ∀ S', mptPass G ord σ S' ⊆ U := by
  intro ord
  induction ord with
  | nil => intro σ U hb S'; exact hb S'
  | cons x xs ih =>
    intro σ U hb S'
    exact ih (mptStep G σ x) U (mptStep_bounded G σ U hb x) S'

variable [Fintype Sp]

/-- Total size is monotone in pointwise inclusion. -/
theorem mptTotal_le (σ σ2 : Sp → Finset Tk) (h : ∀ S, σ S ⊆ σ2 S) :
    mptTotal σ ≤ mptTotal σ2 :=
  Finset.sum_le_sum (fun S _ => Finset.card_le_card (h S))

/-- Pointwise inclusion with no increase of total size forces
equality. -/
theorem mptEq_of_total_le (σ σ2 : Sp → Finset Tk) (h : ∀ S, σ S ⊆ σ2 S)
    (ht : mptTotal σ2 ≤ mptTotal σ) : σ = σ2 := by
  have hc : ∀ S ∈ Finset.univ, (σ S).card ≤ (σ2 S).card :=
    fun S _ => Finset.card_le_card (h S)
  have hsum : ∑ S : Sp, (σ S).card = ∑ S : Sp, (σ2 S).card :=
    le_antisymm (Finset.sum_le_sum hc) ht
  have hall := (Finset.sum_eq_sum_iff_of_le hc).mp hsum
  funext S
  exact Finset.eq_of_subset_of_card_le (h S)
    (le_of_eq (hall S (Finset.mem_univ S)).symm)

/-- The total size of a bounded state is at most the number of spindles
times the size of the universe. -/
theorem mptTotal_bounded (σ : Sp → Finset Tk) (U : Finset Tk)
    (hb : ∀ S, σ S ⊆ U) :
    mptTotal σ ≤ Fintype.card Sp * U.card := by
  unfold mptTotal
  calc ∑ S : Sp, (σ S).card ≤ ∑ _S : Sp, U.card :=
        Finset.sum_le_sum (fun S _ => Finset.card_le_card (hb S))
    _ = Fintype.card Sp * U.card := by
        rw [Finset.sum_const, smul_eq_mul, Finset.card_univ]

/-- The dataflow reaches a fixed point within card Sp times card U
passes: one further pass changes nothing. -/
theorem mptPass_fixed_point (G : MPTGraph Sp Tk Reg) (ord : List Sp)
    (U : Finset Tk) (σ₀ : Sp → Finset Tk) (hb : ∀ S, σ₀ S ⊆ U) :
    (mptPass G ord)^[Fintype.card Sp * U.card + 1] σ₀ =
      (mptPass G ord)^[Fintype.card Sp * U.card] σ₀ := by
  set N := Fintype.card Sp * U.card with hN
  set f := mptPass G ord with hf
  have hbn : ∀ n S, (f^[n] σ₀) S ⊆ U := by
    intro n
    induction n with
    | zero => simpa using hb
    | succ n ih =>
      intro S
      rw [Function.iterate_succ_apply']
      exact mptPass_bounded G ord (f^[n] σ₀) U ih S
  have hgrow : ∀ n S, (f^[n] σ₀) S ⊆ (f^[n + 1] σ₀) S := by
    intro n S
    rw [Function.iterate_succ_apply']
    exact mptPass_grows G ord (f^[n] σ₀) S
  have hkey : ∀ n : Nat, (∀ k < n, f^[k + 1] σ₀ ≠ f^[k] σ₀) →
      n ≤ mptTotal (f^[n] σ₀) := by
    intro n
    induction n with
    | zero => intro _; exact Nat.zero_le _
    | succ n ih =>
      intro hno
      have h1 : n ≤ mptTotal (f^[n] σ₀) :=
        ih (fun k hk => hno k (Nat.lt_succ_of_lt hk))
      have hne : f^[n + 1] σ₀ ≠ f^[n] σ₀ := hno n (Nat.lt_succ_self n)
      have hle : mptTotal (f^[n] σ₀) ≤ mptTotal (f^[n + 1] σ₀) :=
        mptTotal_le _ _ (hgrow n)
      have hlt : mptTotal (f^[n] σ₀) < mptTotal (f^[n + 1] σ₀) := by
        rcases lt_or_eq_of_le hle with hx | hx
        · exact hx
        · exact absurd
            (mptEq_of_total_le _ _ (hgrow n) (le_of_eq hx.symm)).symm hne
      omega
  have hstable : ∃ k, k ≤ N ∧ f^[k + 1] σ₀ = f^[k] σ₀ := by
    by_contra hno
    push_neg at hno
    have hall : ∀ k < N + 1, f^[k + 1] σ₀ ≠ f^[k] σ₀ :=
      fun k hk => hno k (Nat.lt_succ_iff.mp hk)
    have hk2 := hkey (N + 1) hall
    have hbound := mptTotal_bounded (f^[N + 1] σ₀) U (hbn (N + 1))
    omega
  obtain ⟨k, hkN, hk⟩ := hstable
  have hpers : ∀ m, f^[k + m] σ₀ = f^[k] σ₀ := by
    intro m
    induction m with
    | zero => rfl
    | succ m ih =>
      rw [Nat.add_succ, Function.iterate_succ_apply', ih]
      exact (Function.iterate_succ_apply' f k σ₀).symm.trans hk
  have h1 : f^[N] σ₀ = f^[k] σ₀ := by
    have hx := hpers (N - k)
    rwa [Nat.add_sub_cancel' hkN] at hx
  have h2 : f^[N + 1] σ₀ = f^[k] σ₀ := by
    have hx := hpers (N + 1 - k)
    rwa [Nat.add_sub_cancel' (Nat.le_succ_of_le hkN)] at hx
  rw [h1, h2]

end Dataflow

/-- Counterexample to C7: in the three-spindle chain with one task,
evaluated in reverse topological order from a state bounded by the task
universe, the state after card tasks plus one passes differs from the
state after card tasks passes, so the dataflow does not stabilize within
a number of iterations equal to the number of tasks. -/
theorem C7_counterexample :
    ¬ (∀ S : Fin 3,
      ((mptPass c7G c7ord)^[Fintype.card (Fin 1) + 1] c7init) S =
        ((mptPass c7G c7ord)^[Fintype.card (Fin 1)] c7init) S) := by
  decide

/-- C7 amended: across evaluation passes the per-spindle task lists only
grow (elements are inserted, never removed), every list stays inside any
task universe bounding the initial state, and the computation reaches a
fixed point within card spindles times card universe passes, rather than
within card tasks passes. -/
theorem C7_amended {Sp Tk Reg : Type} [DecidableEq Sp] [DecidableEq Tk]
    [DecidableEq Reg] [Fintype Sp] (G : MPTGraph Sp Tk Reg)
    (ord : List Sp) (U : Finset Tk) (σ₀ : Sp → Finset Tk)
    (hb : ∀ S, σ₀ S ⊆ U) :
    (∀ n S, ((mptPass G ord)^[n] σ₀) S ⊆ ((mptPass G ord)^[n + 1] σ₀) S) ∧
    (∀ n S, ((mptPass G ord)^[n] σ₀) S ⊆ U) ∧
    ((mptPass G ord)^[Fintype.card Sp * U.card + 1] σ₀ =
      (mptPass G ord)^[Fintype.card Sp * U.card] σ₀) := by
  refine ⟨?_, ?_, mptPass_fixed_point G ord U σ₀ hb⟩
  · intro n S
    rw [Function.iterate_succ_apply']
    exact mptPass_grows G ord _ S
  · intro n
    induction n with
    | zero => simpa using hb
    | succ n ih =>
      intro S
      rw [Function.iterate_succ_apply']
      exact mptPass_bounded G ord _ U ih S

/-- Witness for the amended C7 at a concrete input. -/
theorem C7_amended_witness :
    (∀ S : Fin 1, c7wInit S ⊆ c7wU) ∧
      ((∀ n S, ((mptPass c7wG [])^[n] c7wInit) S ⊆
          ((mptPass c7wG [])^[n + 1] c7wInit) S) ∧
        (∀ n S, ((mptPass c7wG [])^[n] c7wInit) S ⊆ c7wU) ∧
        ((mptPass c7wG [])^[Fintype.card (Fin 1) * c7wU.card + 1] c7wInit =
          (mptPass c7wG [])^[Fintype.card (Fin 1) * c7wU.card] c7wInit)) :=
  ⟨fun _ => subset_rfl,
    C7_amended c7wG [] c7wU c7wInit (fun _ => subset_rfl)⟩

end TapirRace
